import Mathlib

/-!
Verification development for the Sentinel Compliance Agent (SCA).

This file gives a shallow embedding, in Lean 4, of the core data model and
operations of the repository (policy evaluation, action digests, rate
limiting, replay protection, the tamper-evident audit chain, the executor,
the health probe and the queue item formats), together with theorems
settling the specification claims about them.

Conventions:
* Python floats are modelled as rationals (ℚ); the comparisons involved in
  the claims are exact at these magnitudes.
* SHA-256 and HMAC-SHA256 are modelled as abstract functions `String →
  String`; where a claim needs collision-freedom it appears as an explicit
  hypothesis on the concrete strings involved (the standard idealization of
  a collision-resistant hash).
* Each definition carries a note naming the Python symbol it embeds.
-/

set_option linter.unusedVariables false

namespace Sentinel

/-! ## Character classes (ASCII fragment of Python `re` classes) -/

/-- Python `\w` (ASCII fragment): letters, digits, underscore. -/
def isWordChar (c : Char) : Bool :=
  c.isAlpha || c.isDigit || c = '_'

/-- Python `\s`: whitespace characters. -/
def isSpaceChar (c : Char) : Bool :=
  c = ' ' || c = '\t' || c = '\n' || c = '\r' || c = '\x0b' || c = '\x0c'

/-- Python `.` (no DOTALL): any character except newline. -/
def isDotChar (c : Char) : Bool :=
  c ≠ '\n'

/-! ## A small regular-expression language

Exactly the constructs used by `DENY_PATTERNS` in
`sentinel_rules/policy_v2.py`: literals, one-character classes, `X*` and
`X+` over one-character classes, `(...)?`, `\b` and `$`.  Matching is over
lowercased text, which models `re.IGNORECASE` for these ASCII patterns. -/

inductive Rx where
  | lit (c : Char) : Rx
  | cls (p : Char → Bool) : Rx
  | many (p : Char → Bool) : Rx
  | many1 (p : Char → Bool) : Rx
  | opt (a : Rx) : Rx
  | seq (a b : Rx) : Rx
  | wb : Rx
  | eos : Rx

/-- Zero-or-more single-character class, continuation style:
try every number of consumed characters. -/
def manyRun (p : Char → Bool) (prev : Option Char) (s : List Char)
    (k : Option Char → List Char → Bool) : Bool :=
  match s with
  | [] => k prev []
  | c :: rest => k prev (c :: rest) || (p c && manyRun p (some c) rest k)

/-- Is the position between `prev` and the head of `s` a `\b` word boundary? -/
def atBoundary (prev : Option Char) (s : List Char) : Bool :=
  let before := match prev with | none => false | some c => isWordChar c
  let after := match s with | [] => false | c :: _ => isWordChar c
  before != after

/-- Backtracking matcher in continuation style.  `prev` is the character
just before the current position (`none` at the start of the text), used
for `\b`. -/
def mrun (r : Rx) (prev : Option Char) (s : List Char)
    (k : Option Char → List Char → Bool) : Bool :=
  match r, s with
  | .lit c, [] => false
  | .lit c, d :: rest => c = d && k (some d) rest
  | .cls p, [] => false
  | .cls p, d :: rest => p d && k (some d) rest
  | .many p, s => manyRun p prev s k
  | .many1 p, [] => false
  | .many1 p, d :: rest => p d && manyRun p (some d) rest k
  | .opt a, s => k prev s || mrun a prev s k
  | .seq a b, s => mrun a prev s (fun prev2 s2 => mrun b prev2 s2 k)
  | .wb, s => atBoundary prev s && k prev s
  | .eos, [] => k prev []
  | .eos, _ :: _ => false

/-- Try to match `r` starting at every position of `s` (Python `re.search`). -/
def searchFrom (r : Rx) (prev : Option Char) (s : List Char) : Bool :=
  mrun r prev s (fun _ _ => true) ||
    match s with
    | [] => false
    | c :: rest => searchFrom r (some c) rest

/-- `str.lower()` on the underlying characters (ASCII fragment). -/
def strLower (s : String) : List Char :=
  s.data.map Char.toLower

/-- `str.strip()` (ASCII whitespace fragment). -/
def strTrim (s : String) : String :=
  ⟨((s.data.dropWhile isSpaceChar).reverse.dropWhile isSpaceChar).reverse⟩

/-- `rx.search(text)` as a Bool, with `re.IGNORECASE` modelled by
lowercasing the text (patterns below are written lowercased). -/
def rxSearch (r : Rx) (text : String) : Bool :=
  searchFrom r none (strLower text)

/-- Sequence a list of regexes. -/
def rxCat (rs : List Rx) : Rx :=
  match rs with
  | [] => .opt (.lit 'x')
  | [r] => r
  | r :: rest => .seq r (rxCat rest)

/-- A string of literal characters. -/
def rxLits (t : String) : Rx :=
  rxCat (t.data.map Rx.lit)

/-! ## Deny patterns — `DENY_PATTERNS` in `sentinel_rules/policy_v2.py`

Each entry is the Lean transcription of the Python regex (written
lowercased, see `rxSearch`) paired with its reason string. -/

/-- `\bdd\b.*\bif=/dev/zero\b.*\bof=/dev/\S+` -/
def rxDdWipe : Rx :=
  rxCat [.wb, rxLits "dd", .wb, .many isDotChar, .wb, rxLits "if=/dev/zero",
    .wb, .many isDotChar, .wb, rxLits "of=/dev/", .many1 (fun c => !isSpaceChar c)]

/-- `\bmkfs(\.\w+)?\b` -/
def rxMkfs : Rx :=
  rxCat [.wb, rxLits "mkfs", .opt (.seq (.lit '.') (.many1 isWordChar)), .wb]

/-- `\bwipefs\b` -/
def rxWipefs : Rx :=
  rxCat [.wb, rxLits "wipefs", .wb]

/-- `\brm\s+-rf\b` -/
def rxRmRf : Rx :=
  rxCat [.wb, rxLits "rm", .many1 isSpaceChar, rxLits "-rf", .wb]

/-- `\brm\s+-f\s+/\s*$` -/
def rxRmFRoot : Rx :=
  rxCat [.wb, rxLits "rm", .many1 isSpaceChar, rxLits "-f", .many1 isSpaceChar,
    .lit '/', .many isSpaceChar, .eos]

/-- `\brm\s+-f\s+/\*\s*$` -/
def rxRmFRootStar : Rx :=
  rxCat [.wb, rxLits "rm", .many1 isSpaceChar, rxLits "-f", .many1 isSpaceChar,
    .lit '/', .lit '*', .many isSpaceChar, .eos]

/-- `\brm\s+-rf\b.*--no-preserve-root\b` -/
def rxRmRfNoPreserve : Rx :=
  rxCat [.wb, rxLits "rm", .many1 isSpaceChar, rxLits "-rf", .wb,
    .many isDotChar, rxLits "--no-preserve-root", .wb]

/-- `\bchmod\b.*\s-R\s+777\s+/\s*$` -/
def rxChmodBomb : Rx :=
  rxCat [.wb, rxLits "chmod", .wb, .many isDotChar, .cls isSpaceChar,
    rxLits "-r", .many1 isSpaceChar, rxLits "777", .many1 isSpaceChar,
    .lit '/', .many isSpaceChar, .eos]

/-- `\bchown\b.*\s-R\s+\S+\s+/\s*$` -/
def rxChownBomb : Rx :=
  rxCat [.wb, rxLits "chown", .wb, .many isDotChar, .cls isSpaceChar,
    rxLits "-r", .many1 isSpaceChar, .many1 (fun c => !isSpaceChar c),
    .many1 isSpaceChar, .lit '/', .many isSpaceChar, .eos]

/-- `DENY_PATTERNS`: the ordered (pattern, reason) list. -/
def DENY_PATTERNS : List (Rx × String) :=
  [(rxDdWipe, "Matched high-risk pattern: 'dd if=/dev/zero of=/dev/*'"),
   (rxMkfs, "Matched high-risk pattern: 'mkfs'"),
   (rxWipefs, "Matched high-risk pattern: 'wipefs'"),
   (rxRmRf, "Matched high-risk pattern: 'rm -rf'"),
   (rxRmFRoot, "Matched high-risk pattern: '\\brm\\s+-f\\s+/\\s*$'"),
   (rxRmFRootStar, "Matched high-risk pattern: '\\brm\\s+-f\\s+/\\*\\s*$'"),
   (rxRmRfNoPreserve, "Matched high-risk pattern: 'rm -rf --no-preserve-root'"),
   (rxChmodBomb, "Matched high-risk pattern: 'chmod -R 777 /'"),
   (rxChownBomb, "Matched high-risk pattern: 'chown -R * /'")]

/-- First deny pattern (in order) matching `cmd`, with its reason. -/
def findDenyReason (cmd : String) : Option String :=
  (DENY_PATTERNS.find? (fun pr => rxSearch pr.1 cmd)).map Prod.snd

/-- Does `cmd` match some deny pattern? -/
def matchesDenyPattern (cmd : String) : Bool :=
  DENY_PATTERNS.any (fun pr => rxSearch pr.1 cmd)

/-! ## Policy evaluation — `evaluate_command_v2` in `sentinel_rules/policy_v2.py` -/

/-- `SENTINEL_REP_DENY_AT` default. -/
def REP_DENY_AT : ℚ := -10

/-- `SENTINEL_REP_REVIEW_AT` default. -/
def REP_REVIEW_AT : ℚ := -5

/-- A policy verdict `(decision, risk, risk_score, reason)`. -/
structure Verdict where
  decision : String
  risk : String
  risk_score : ℚ
  reason : String
  deriving DecidableEq, Repr

/-- `evaluate_command_v2(command, reputation)`: reputation gates first,
then the deny patterns in order, else allow.  The reputation argument is a
rational because the API passes the request float straight through. -/
def evaluate_command_v2 (command : String) (reputation : ℚ) : Verdict :=
  let cmd := strTrim command
  if reputation ≤ REP_DENY_AT then
    ⟨"deny", "high", 0.99, "Reputation too low (<= -10)"⟩
  else if reputation ≤ REP_REVIEW_AT then
    ⟨"review", "medium", 0.60, "Reputation low (<= -5)"⟩
  else
    match findDenyReason cmd with
    | some reason => ⟨"deny", "high", 0.95, reason⟩
    | none => ⟨"allow", "low", 0.05, "No policy violations detected"⟩

/-! ## Float reputation gate — `analyze` in `sentinel_api.py`, lines 682–694 -/

/-- `REP_AUTO_DENY` default. -/
def REP_AUTO_DENY : ℚ := 0.20

/-- `REP_AUTO_REVIEW` default. -/
def REP_AUTO_REVIEW : ℚ := 0.40

/-- Decimal digits of a natural number, most significant first (fuel-based
structural recursion so that it reduces in the kernel). -/
def natDigits : ℕ → ℕ → List Char
  | 0, _ => []
  | _ + 1, 0 => []
  | fuel + 1, n =>
    natDigits fuel (n / 10) ++ [Char.ofNat (48 + n % 10)]

/-- Render a natural number in decimal. -/
def natStr (n : ℕ) : String :=
  if n = 0 then "0" else ⟨natDigits (n + 1) n⟩

/-- Render an integer in decimal. -/
def intStr (i : ℤ) : String :=
  if i < 0 then "-" ++ natStr i.natAbs else natStr i.natAbs

/-- Render a rational for interpolation into reason strings (stands in for
Python float formatting; no claim depends on the exact text). -/
def qstr (q : ℚ) : String :=
  intStr q.num ++ "/" ++ natStr q.den

/-- The score-based reputation gate applied after pattern evaluation:
only an `allow` can be downgraded by the float score. -/
def applyRepGate (autoDeny autoReview : ℚ) (v : Verdict) (repScore : ℚ) : Verdict :=
  if v.decision = "allow" then
    if repScore < autoDeny then
      ⟨"deny", "high", max v.risk_score 0.95,
        "Reputation gate: rep=" ++ qstr repScore ++ " < " ++ qstr autoDeny⟩
    else if repScore < autoReview then
      ⟨"review", "medium", max v.risk_score 0.65,
        "Reputation gate: rep=" ++ qstr repScore ++ " < " ++ qstr autoReview⟩
    else v
  else v

/-! ## Action digests — `ops_digest.py` -/

/-- JSON string quoting used by canonical `json.dumps` (escaping of `"` and
`\`; control characters do not occur in the fields the claims touch). -/
def jstr (s : String) : String :=
  "\"" ++ ⟨s.data.flatMap (fun c =>
    if c = '"' then ['\\', '"']
    else if c = '\\' then ['\\', '\\']
    else [c])⟩ ++ "\""

/-- Code-point comparison on strings (the order `sort_keys=True` uses). -/
def strLeChars : List Char → List Char → Bool
  | [], _ => true
  | _ :: _, [] => false
  | a :: as, b :: bs => if a = b then strLeChars as bs else a.toNat < b.toNat

/-- Insert into a list sorted by `le` (kernel-reducing insertion sort). -/
def insertBy (le : α → α → Bool) (x : α) : List α → List α
  | [] => [x]
  | y :: ys => if le x y then x :: y :: ys else y :: insertBy le x ys

/-- Insertion sort by `le`. -/
def sortBy (le : α → α → Bool) : List α → List α
  | [] => []
  | x :: xs => insertBy le x (sortBy le xs)

/-- Join strings with a comma. -/
def joinComma : List String → String
  | [] => ""
  | [s] => s
  | s :: rest => s ++ "," ++ joinComma rest

/-- Canonical JSON of a string-valued object: keys sorted lexicographically,
no whitespace (`json.dumps(obj, sort_keys=True, separators=(",", ":"))`). -/
def canonObj (ps : List (String × String)) : String :=
  let sorted := sortBy (fun a b => strLeChars a.1.data b.1.data) ps
  "\x7b" ++ joinComma (sorted.map (fun p => jstr p.1 ++ ":" ++ jstr p.2)) ++ "\x7d"

/-- An action object as consumed by `digest_action`: the immutable intent
(`type`, `target`, `params`) together with the mutable fields that ride
along in the same dict (`reason`) and, for robustness of the claim, any
further fields a caller may have attached.  `none` models a missing key. -/
structure OpsAction where
  type : Option String
  target : Option String
  params : List (String × String)
  reason : Option String
  extra : List (String × String)
  deriving DecidableEq, Repr

/-- `digest_action(action)` from `ops_digest.py`: hash (parameter `H`,
modelling `hashlib.sha256(...).hexdigest()`) of the canonical JSON of
`{"params": …, "target": …, "type": …}` (keys in sorted order), with
`sha256:` prefixed. -/
def digest_action (H : String → String) (a : OpsAction) : String :=
  let payload := "\x7b\"params\":" ++ canonObj a.params ++
    ",\"target\":" ++ jstr (strTrim (a.target.getD "")) ++
    ",\"type\":" ++ jstr (strTrim (a.type.getD "")) ++ "\x7d"
  "sha256:" ++ H payload

/-! ## Rate limiter — `_rate_limit` in `sentinel_api.py`, lines 230–243 -/

/-- One admission attempt on an agent's deque `q` at wall time `now`:
drop entries older than the window from the left, then admit iff the
count is below `maxEvents`.  Returns (admitted?, new deque).  A `false`
result models the HTTP 429 `RateLimited` error. -/
def rateLimitStep (maxEvents : ℤ) (windowSec : ℚ) (q : List ℚ) (now : ℚ) :
    Bool × List ℚ :=
  if maxEvents ≤ 0 then (true, q)
  else
    let cutoff := now - windowSec
    let q2 := q.dropWhile (fun t => t < cutoff)
    if maxEvents ≤ (q2.length : ℤ) then (false, q2)
    else (true, q2 ++ [now])

/-- Run a sequence of admission attempts from an initial deque, collecting
the admission flags and the final deque. -/
def rateLimitRun (maxEvents : ℤ) (windowSec : ℚ) (q : List ℚ) :
    List ℚ → List Bool × List ℚ
  | [] => ([], q)
  | now :: rest =>
    let r := rateLimitStep maxEvents windowSec q now
    let t := rateLimitRun maxEvents windowSec r.2 rest
    (r.1 :: t.1, t.2)

/-! ## Replay store — `check_and_set` in `sentinel_core/replay_db.py` -/

/-- The `replay_nonces` table: rows `(nonce, created_at)`. -/
structure ReplayStore where
  entries : List (String × ℚ)
  deriving DecidableEq, Repr

/-- `check_and_set(db_path, nonce, ttl_seconds)` at wall time `now`:
delete rows older than `now - ttl`, then insert the nonce.  Returns
`true` iff the nonce was new (insert succeeded).  On the replay path the
transaction is closed without commit, so the cleanup is rolled back and
the store is returned unchanged. -/
def check_and_set (st : ReplayStore) (nonce : String) (ttl : ℚ) (now : ℚ) :
    Bool × ReplayStore :=
  let cutoff := now - ttl
  let live := st.entries.filter (fun e => !(e.2 < cutoff : Bool))
  if live.any (fun e => e.1 = nonce) then
    (false, st)
  else
    (true, ⟨live ++ [(nonce, now)]⟩)

/-! ## Gateway `/analyze` — `analyze` in `sentinel_api.py`, lines 612–766

The HTTP layer is modelled as a pure transition on the gateway's mutable
state.  SHA-256 of the replay preimage is modelled as the preimage itself
(a collision-free idealization); HMAC-SHA256 is an abstract parameter
`sign : String → String` already closed over the signing secret.  The
legacy file-based reputation ledger and the audit append are orthogonal to
the claims routed through this model and are treated separately. -/

/-- Gateway configuration (env-derived constants of `sentinel_api.py`). -/
structure ApiConfig where
  GLOBAL_FREEZE : Bool
  API_KEY : String
  signingEnabled : Bool
  TIME_WINDOW_SEC : ℚ
  RATE_LIMIT_MAX : ℤ
  RATE_LIMIT_WINDOW_SEC : ℚ
  REP_AUTO_DENY : ℚ
  REP_AUTO_REVIEW : ℚ

/-- Cross-request state of the gateway process: the per-agent rate-limit
deques, the replay nonce store and the float reputation oracle keys. -/
structure GatewayState where
  rateEvents : String → List ℚ
  replay : ReplayStore
  repScore : String → Option ℚ

/-- Outcome of one `/analyze` request: an HTTP error or the decision core
of the response body. -/
inductive ApiResult where
  | err (status : ℕ) (detail : String)
  | ok (v : Verdict) (repScoreBefore repScoreAfter : ℚ)
  deriving DecidableEq, Repr

/-- `_replay_nonce(agent_id, command, ts_unix)`: SHA-256 of
`agent|command|ts_unix`, modelled by the preimage itself. -/
def replayNonce (agent command tsUnix : String) : String :=
  agent ++ "|" ++ command ++ "|" ++ tsUnix

/-- Canonical signed payload of `/analyze`
(`json.dumps` of keys agent_id, command, timestamp, ts_unix, sorted). -/
def canonSignedPayload (agent command timestamp tsUnix : String) : String :=
  "\x7b\"agent_id\":" ++ jstr agent ++ ",\"command\":" ++ jstr command ++
    ",\"timestamp\":" ++ jstr timestamp ++ ",\"ts_unix\":" ++ jstr tsUnix ++ "\x7d"

/-- `get_rep(agent)` (reputation_redis.py): stored score or the default 1.0. -/
def get_rep (st : GatewayState) (agent : String) : ℚ :=
  (st.repScore agent).getD 1

/-- `apply_outcome(agent, decision)` (reputation_redis.py): bump the score
by the decision's delta, clamped to [0,1]. -/
def apply_outcome (score : ℚ) (decision : String) : ℚ :=
  let delta : ℚ :=
    if decision = "allow" then 0.01
    else if decision = "review" then -0.03
    else if decision = "deny" then -0.08
    else 0
  max 0 (min 1 (score + delta))

/-- The request body of `/analyze`. -/
structure AnalyzeRequest where
  agent_id : String
  command : String
  timestamp : String
  reputation : ℚ

/-- One `/analyze` request against the gateway.  `xApiKey`, `xSig`,
`xTsUnix` are the headers (`none` = absent); `parseTs` models Python
`float(...)` on the raw `X-Timestamp-Unix` string; `sign` models
`_sign_payload`; `now` is the wall clock.  Mirrors the order of
`sentinel_api.analyze`: freeze → rate limit → API key → signature headers →
timestamp window → replay check-and-set → signature verify → policy →
reputation gate → reputation updates. -/
def analyze (cfg : ApiConfig) (sign : String → String)
    (parseTs : String → Option ℚ) (st : GatewayState) (req : AnalyzeRequest)
    (xApiKey xSig xTsUnix : Option String) (now : ℚ) :
    ApiResult × GatewayState :=
  if cfg.GLOBAL_FREEZE then (.err 503 "Global freeze enabled", st)
  else
    -- _rate_limit(req.agent_id)
    let rl := rateLimitStep cfg.RATE_LIMIT_MAX cfg.RATE_LIMIT_WINDOW_SEC
      (st.rateEvents req.agent_id) now
    let st1 : GatewayState :=
      { st with rateEvents := fun a =>
          if a = req.agent_id then rl.2 else st.rateEvents a }
    if !rl.1 then (.err 429 "Rate limit exceeded", st1)
    -- _require_api_key
    else if cfg.API_KEY ≠ "" ∧ xApiKey ≠ some cfg.API_KEY then
      (.err 401 "Invalid API key", st1)
    else
      -- signed mode: headers, window, replay check-and-set, signature verify
      let signedPhase : Except (ApiResult × GatewayState) GatewayState :=
        if cfg.signingEnabled then
          match xSig, xTsUnix with
          | some sig, some tsStr =>
            match parseTs tsStr with
            | none => .error (.err 400 "Bad X-Timestamp-Unix", st1)
            | some tsUnix =>
              if |now - tsUnix| > cfg.TIME_WINDOW_SEC then
                .error (.err 401 "Timestamp outside allowed window", st1)
              else
                let nonce := replayNonce req.agent_id req.command tsStr
                let cas := check_and_set st1.replay nonce cfg.TIME_WINDOW_SEC now
                let st2 : GatewayState := { st1 with replay := cas.2 }
                if !cas.1 then .error (.err 409 "Replay detected", st2)
                else
                  let expected := sign (canonSignedPayload req.agent_id
                    req.command req.timestamp tsStr)
                  if expected ≠ sig then .error (.err 401 "Bad signature", st2)
                  else .ok st2
          | _, _ => .error (.err 401 "Missing signature headers", st1)
        else .ok st1
      match signedPhase with
      | .error out => out
      | .ok stAuth =>
        let v0 := evaluate_command_v2 req.command req.reputation
        let repBefore := get_rep stAuth req.agent_id
        let v := applyRepGate cfg.REP_AUTO_DENY cfg.REP_AUTO_REVIEW v0 repBefore
        let repAfter := apply_outcome repBefore v.decision
        let st3 : GatewayState :=
          { stAuth with repScore := fun a =>
              if a = req.agent_id then some repAfter else stAuth.repScore a }
        (.ok v repBefore repAfter, st3)

/-! ## Audit chain — `write_audit_log` / `verify_audit_chain` in
`sentinel_api.py`, lines 296–406

`hashlib.sha256(...).hexdigest()` is the abstract parameter `H` and
`_audit_hmac` the abstract parameter `hm` (already closed over
`SENTINEL_AUDIT_SECRET`); `secretSet` says whether that secret is
configured.  Entries are the eleven audit fields; the JSONL line of a
record is its entry (which includes `prev_hash`) plus `hash` and `sig`. -/

/-- The ten request-derived fields of an audit entry (all but `prev_hash`). -/
structure AuditContent where
  ts : String
  client_ip : String
  agent_id : String
  command : String
  decision : String
  risk : String
  risk_score : ℚ
  reason : String
  policy_version : String
  vt : String
  deriving DecidableEq, Repr

/-- `json.dumps(entry, sort_keys=True, separators=(",", ":"))` for the
entry dict `{…content fields…, prev_hash}` (keys in sorted order:
agent_id, client_ip, command, decision, policy_version, prev_hash, reason,
risk, risk_score, ts, vt).  `risk_score` is rendered with `qstr`, standing
in for Python float repr. -/
def canonAuditEntry (c : AuditContent) (prev_hash : String) : String :=
  "\x7b\"agent_id\":" ++ jstr c.agent_id ++
    ",\"client_ip\":" ++ jstr c.client_ip ++
    ",\"command\":" ++ jstr c.command ++
    ",\"decision\":" ++ jstr c.decision ++
    ",\"policy_version\":" ++ jstr c.policy_version ++
    ",\"prev_hash\":" ++ jstr prev_hash ++
    ",\"reason\":" ++ jstr c.reason ++
    ",\"risk\":" ++ jstr c.risk ++
    ",\"risk_score\":" ++ qstr c.risk_score ++
    ",\"ts\":" ++ jstr c.ts ++
    ",\"vt\":" ++ jstr c.vt ++ "\x7d"

/-- One line of `audit.jsonl`. -/
structure AuditRecord where
  entry : AuditContent
  prev_hash : String
  hash : String
  sig : String
  deriving DecidableEq, Repr

/-- The audit files: `audit.jsonl` plus the head kept in `audit.state`
(read as `GENESIS` when absent). -/
structure AuditLog where
  lines : List AuditRecord
  state : String
  deriving DecidableEq, Repr

/-- The empty audit log. -/
def emptyAudit : AuditLog := ⟨[], "GENESIS"⟩

/-- `write_audit_log`: read the head, chain the new entry onto it, hash
`prev_hash ++ "|" ++ canonical(entry)`, sign the hash when the audit
secret is configured, append the record and advance the head. -/
def write_audit_log (H hm : String → String) (secretSet : Bool)
    (log : AuditLog) (c : AuditContent) : AuditLog :=
  let prev := log.state
  let entry_hash := H (prev ++ "|" ++ canonAuditEntry c prev)
  let sig := if secretSet then hm entry_hash else ""
  ⟨log.lines ++ [⟨c, prev, entry_hash, sig⟩], entry_hash⟩

/-- A sequence of appends starting from the empty log. -/
def appendAll (H hm : String → String) (secretSet : Bool)
    (cs : List AuditContent) : AuditLog :=
  cs.foldl (write_audit_log H hm secretSet) emptyAudit

/-- Result of `verify_audit_chain`: ok with the line count, or the
1-based line number of the first mismatching entry with its error. -/
inductive VerifyResult where
  | ok (lines : ℕ)
  | fail (line : ℕ) (error : String)
  deriving DecidableEq, Repr

/-- The verification loop of `verify_audit_chain`: `prev` is the running
previous hash, `done` the number of lines already checked. -/
def verifyGo (H hm : String → String) (secretSet : Bool) (prev : String)
    (done : ℕ) : List AuditRecord → VerifyResult
  | [] => .ok done
  | r :: rest =>
    let n := done + 1
    let expected := H (prev ++ "|" ++ canonAuditEntry r.entry r.prev_hash)
    if r.prev_hash ≠ prev then .fail n "prev_hash mismatch"
    else if r.hash ≠ expected then .fail n "hash mismatch"
    else if secretSet ∧ r.sig ≠ hm expected then .fail n "sig mismatch"
    else verifyGo H hm secretSet r.hash n rest

/-- `verify_audit_chain`: replay the chain from `GENESIS`. -/
def verify_audit_chain (H hm : String → String) (secretSet : Bool)
    (recs : List AuditRecord) : VerifyResult :=
  verifyGo H hm secretSet "GENESIS" 0 recs

/-- A tamper of a single stored field, the record-level image of flipping
one byte of a JSONL line: exactly one of the entry content, the stored
`prev_hash`, the stored `hash`, or (when a secret is configured, so that
the stored signature is nonempty) the stored `sig` differs. -/
def singleFieldTamper (secretSet : Bool) (r r2 : AuditRecord) : Prop :=
  (r2.entry ≠ r.entry ∧ r2.prev_hash = r.prev_hash ∧ r2.hash = r.hash ∧ r2.sig = r.sig) ∨
  (r2.entry = r.entry ∧ r2.prev_hash ≠ r.prev_hash ∧ r2.hash = r.hash ∧ r2.sig = r.sig) ∨
  (r2.entry = r.entry ∧ r2.prev_hash = r.prev_hash ∧ r2.hash ≠ r.hash ∧ r2.sig = r.sig) ∨
  (secretSet ∧ r2.entry = r.entry ∧ r2.prev_hash = r.prev_hash ∧ r2.hash = r.hash ∧
    r2.sig ≠ r.sig)

/-! ## Action records and the ops pipeline

Canonical action records (`ops:action:<id>`) are modelled structurally;
their JSON serialization (`jdump`) is the abstract parameter `sdoc` where
it only rides along inside queue documents.  `strTake n` models Python
slicing `[:n]`. -/

/-- `s[:n]` on strings. -/
def strTake (n : ℕ) (s : String) : String :=
  ⟨s.data.take n⟩

/-- The `approval` block written by the approver. -/
structure ApprovalBlock where
  approved_by : String
  approved_ts : ℚ
  approved_digest : String
  deriving DecidableEq, Repr

/-- The `execution` block written by the executor. -/
structure ExecutionBlock where
  claimed_by : String
  claimed_ts : ℚ
  executed_ts : ℚ
  ok : Bool
  reason : String
  returncode : ℤ
  stdout : String
  stderr : String
  cmd : String
  hint : String
  deriving DecidableEq, Repr

/-- The slice of a canonical action record the approver and executor read
and write: the action object, the status and the per-stage blocks. -/
structure ActionDoc where
  action : OpsAction
  status : String
  approval : Option ApprovalBlock
  execution : Option ExecutionBlock
  deriving DecidableEq, Repr

/-- `ALLOWED_TYPES` / `ALLOWED_TARGETS` checks shared by approver and
executor (`_allowed`): an empty configured list disables that check. -/
def allowedCheck (types targets : List String) (ty tg : String) :
    Bool × String :=
  if !types.isEmpty && !types.contains ty then
    (false, "type_not_allowed:" ++ ty)
  else if !targets.isEmpty && !targets.contains tg then
    (false, "target_not_allowed:" ++ tg)
  else (true, "ok")

/-! ### Approver — `approver_bot.py` -/

/-- KV writes and queue pushes produced by one approver action. -/
structure ApproverOut where
  kvWrites : List (String × ActionDoc)
  approvedPushes : List String
  rejectedPushes : List String
  deriving Repr

/-- `_approve(record, action_id, computed_digest)` (approver_bot.py,
lines 78–95): set status/approval on the record, persist it, and push the
full approved message `{action_id, approved_msg, ts}` (canonical JSON,
keys sorted) to the approved queue. -/
def approver_approve (sdoc : ActionDoc → String) (now : ℚ)
    (record : ActionDoc) (action_id computed_digest : String) : ApproverOut :=
  let record2 : ActionDoc :=
    { record with
      status := "approved"
      approval := some ⟨"human_approver", now, computed_digest⟩ }
  let msg := "\x7b\"action_id\":" ++ jstr action_id ++
    ",\"approved_msg\":" ++ sdoc record2 ++ ",\"ts\":" ++ qstr now ++ "\x7d"
  ⟨[("ops:action:" ++ action_id, record2)], [msg], []⟩

/-- `_reject(record, action_id, reason)` (approver_bot.py, lines 62–75):
mark the record rejected, persist it, and push a JSON error document to
the rejected queue. -/
def approver_reject (sdoc : ActionDoc → String) (now : ℚ)
    (record : ActionDoc) (action_id reason : String) : ApproverOut :=
  let record2 : ActionDoc := { record with status := "rejected" }
  let msg := "\x7b\"action_id\":" ++ jstr action_id ++
    ",\"error\":\"rejected\",\"reason\":" ++ jstr (strTake 800 reason) ++
    ",\"ts\":" ++ qstr now ++ "\x7d"
  ⟨[("ops:action:" ++ action_id, record2)], [], [msg]⟩

/-! ### Executor — `executor_worker.py` -/

/-- Executor configuration (env constants of `executor_worker.py`). -/
structure ExecConfig where
  ALLOWED_TYPES : List String
  ALLOWED_TARGETS : List String
  REQUIRE_DIGEST_MATCH : Bool
  IDEMPOTENCY_TTL_SEC : ℚ

/-- Executor-visible shared state: idempotency keys (with their expiry
times), the canonical records, the two outcome queues, and the log of
side-effect dispatches actually performed. -/
structure ExecState where
  doneKeys : List (String × ℚ)
  kv : List (String × ActionDoc)
  executedQ : List String
  rejectedQ : List String
  dispatches : List String
  deriving Repr

/-- An item of the approved queue after `jload`: the action_id and the
full approved record (JSON decoding elided). -/
structure ApprovedMsg where
  action_id : String
  approved_msg : ActionDoc
  deriving DecidableEq, Repr

/-- `SET key "1" NX EX ttl` on `ops:exec:done:<id>`: is the key alive? -/
def doneAlive (doneKeys : List (String × ℚ)) (action_id : String) (now : ℚ) :
    Bool :=
  doneKeys.any (fun p => p.1 = action_id && now < p.2)

/-- `_reject(action_id, approved_msg, reason, extra)` of the executor
(executor_worker.py, lines 90–113): attach a failed execution block, mark
the record rejected, persist, and push a JSON error document. -/
def executor_reject (sdoc : ActionDoc → String) (now : ℚ) (st : ExecState)
    (action_id : String) (doc : ActionDoc) (reason : String) : ExecState :=
  let e : ExecutionBlock :=
    ⟨"agent_executor", now, now, false, strTake 300 reason, 1, "", "", "", ""⟩
  let doc2 : ActionDoc := { doc with status := "rejected", execution := some e }
  let item := "\x7b\"action_id\":" ++ jstr action_id ++
    ",\"error\":\"execution_rejected\",\"extra\":\x7b\x7d,\"reason\":" ++
    jstr (strTake 800 reason) ++ ",\"ts\":" ++ qstr now ++ "\x7d"
  { st with
    kv := ("ops:action:" ++ action_id, doc2) :: st.kv
    rejectedQ := st.rejectedQ ++ [item] }

/-- `_record_executed(action_id, approved_msg, execution)`
(executor_worker.py, lines 116–135): set status from the return code,
persist, and push the full JSON event to the executed queue on success or
a JSON error document to the rejected queue on failure. -/
def record_executed (sdoc : ActionDoc → String)
    (sexec : ExecutionBlock → String) (now : ℚ) (st : ExecState)
    (action_id : String) (doc : ActionDoc) (e : ExecutionBlock) : ExecState :=
  let doc2 : ActionDoc :=
    { doc with
      status := if e.ok then "executed" else "failed"
      execution := some e }
  let st2 := { st with kv := ("ops:action:" ++ action_id, doc2) :: st.kv }
  if e.ok then
    { st2 with executedQ := st2.executedQ ++
        ["\x7b\"action_id\":" ++ jstr action_id ++ ",\"approved_msg\":" ++
          sdoc doc2 ++ ",\"execution\":" ++ sexec e ++ ",\"ts\":" ++
          qstr now ++ "\x7d"] }
  else
    { st2 with rejectedQ := st2.rejectedQ ++
        ["\x7b\"action_id\":" ++ jstr action_id ++
          ",\"error\":\"execution_failed\",\"extra\":" ++ sexec e ++
          ",\"ts\":" ++ qstr now ++ "\x7d"] }

/-- One delivery of an approved message to the executor loop
(executor_worker.py, lines 175–229): allowlist, digest re-verification
against `approval.approved_digest`, idempotency NX set, dispatch of
`restart_service` via the process manager (abstracted as `restart`,
returning `(returncode, stdout, stderr, hint)`), and recording. -/
def executorStep (cfg : ExecConfig) (H : String → String)
    (sdoc : ActionDoc → String) (sexec : ExecutionBlock → String)
    (restart : String → ℤ × String × String × String) (now : ℚ)
    (st : ExecState) (msg : ApprovedMsg) : ExecState :=
  let doc := msg.approved_msg
  let action_type := strTrim (doc.action.type.getD "")
  let target := strTrim (doc.action.target.getD "")
  let chk := allowedCheck cfg.ALLOWED_TYPES cfg.ALLOWED_TARGETS action_type target
  if !chk.1 then executor_reject sdoc now st msg.action_id doc chk.2
  else
    let computed := digest_action H doc.action
    let approved_digest := strTrim (((doc.approval).map (·.approved_digest)).getD "")
    if cfg.REQUIRE_DIGEST_MATCH && approved_digest = "" then
      executor_reject sdoc now st msg.action_id doc "missing_approved_digest"
    else if cfg.REQUIRE_DIGEST_MATCH && approved_digest ≠ computed then
      executor_reject sdoc now st msg.action_id doc
        ("digest_mismatch approved=" ++ approved_digest ++ " computed=" ++ computed)
    else if doneAlive st.doneKeys msg.action_id now then
      -- already executed recently — drop silently
      st
    else
      let newDone := st.doneKeys.filter (fun p => p.1 ≠ msg.action_id) ++
        [(msg.action_id, now + cfg.IDEMPOTENCY_TTL_SEC)]
      let st1 : ExecState := { st with doneKeys := newDone }
      if action_type = "restart_service" then
        let res := restart target
        let e : ExecutionBlock :=
          ⟨"agent_executor", now, now, res.1 = 0, "", res.1,
            strTake 4000 res.2.1, strTake 4000 res.2.2.1,
            "docker compose -f /app/docker-compose.yml --env-file /app/.env restart "
              ++ target, res.2.2.2⟩
        let st2 := { st1 with dispatches := st1.dispatches ++ [target] }
        record_executed sdoc sexec now st2 msg.action_id doc e
      else
        executor_reject sdoc now st1 msg.action_id doc
          ("unsupported_action_type:" ++ action_type)

/-! ### Manager proposal and reaper pushes (queue item formats) -/

/-- The queue push performed by `propose_from_recommendation`
(worker_manager.py, line 207): the bare `action_id` onto the proposed
queue, with the canonical record stored at `ops:action:<id>`. -/
def managerProposePush (sdoc : ActionDoc → String) (record : ActionDoc)
    (action_id : String) : (String × String) × (String × String) :=
  (("ops:action:" ++ action_id, sdoc record), ("ops:actions:proposed", action_id))

/-- `requeue_or_quarantine(action_id, rec, origin)` (worker_reaper.py,
lines 54–85): past `MAX_REQUEUES` push the bare id onto the quarantine
queue, else push it back onto its origin queue.  Returns
`(queue, item, new status)`. -/
def requeue_or_quarantine (MAX_REQUEUES : ℕ) (action_id : String)
    (recStatus : String) (origin : String) (count : ℕ) :
    String × String × String :=
  if MAX_REQUEUES < count then
    ("ops:actions:quarantine", action_id, "quarantined")
  else if origin = "proposed" then
    ("ops:actions:proposed", action_id, recStatus)
  else
    ("ops:actions:approved", action_id, recStatus)

/-! ## Health probe — `worker_probe.py` -/

/-- Per-service persisted probe state: `ops:probe:state:<svc>` (absent
initially, read as `"unknown"`) and `ops:probe:failcount:<svc>`. -/
structure ProbeState where
  stored : Option String
  failcount : ℕ
  deriving DecidableEq, Repr

/-- One probe cycle for one service (worker_probe.py, lines 108–152):
update the fail counter, compute the new state (fail only once the
counter reaches `FAIL_THRESHOLD`), emit an incident exactly on a
`{unknown, ok} → fail` transition, store the new state.  Returns the new
state and whether an incident was pushed. -/
def probeStep (T : ℕ) (st : ProbeState) (ok : Bool) : ProbeState × Bool :=
  let prev := st.stored.getD "unknown"
  if ok then
    (⟨some "ok", 0⟩, false)
  else
    let failcount := st.failcount + 1
    let nowState := if T ≤ failcount then "fail" else "ok"
    (⟨some nowState, failcount⟩, nowState = "fail" && prev ≠ "fail")

/-- Run the probe over a sequence of health outcomes, collecting the
emission flags. -/
def probeRun (T : ℕ) (st : ProbeState) : List Bool → ProbeState × List Bool
  | [] => (st, [])
  | o :: os =>
    let r1 := probeStep T st o
    let r2 := probeRun T r1.1 os
    (r2.1, r1.2 :: r2.2)

/-- The trace of persisted states over a sequence of outcomes. -/
def probeTrace (T : ℕ) (st : ProbeState) : List Bool → List String
  | [] => []
  | o :: os =>
    let st1 := (probeStep T st o).1
    st1.stored.getD "unknown" :: probeTrace T st1 os

/-- Number of `non-fail → fail` transitions along a state trace starting
from `prev`. -/
def transitionsToFail (prev : String) : List String → ℕ
  | [] => 0
  | s :: rest =>
    (if s = "fail" ∧ prev ≠ "fail" then 1 else 0) + transitionsToFail s rest

/-- Direct recursive characterization of the records a sequence of
appends produces from running head `prev` (used to reason about
`appendAll`). -/
def buildRecs (H hm : String → String) (secretSet : Bool) (prev : String) :
    List AuditContent → List AuditRecord
  | [] => []
  | c :: cs =>
    let h := H (prev ++ "|" ++ canonAuditEntry c prev)
    ⟨c, prev, h, if secretSet then hm h else ""⟩ :: buildRecs H hm secretSet h cs

/-- The head value after appending `cs` on top of running head `prev`. -/
def chainEnd (H : String → String) (prev : String) :
    List AuditContent → String
  | [] => prev
  | c :: cs => chainEnd H (H (prev ++ "|" ++ canonAuditEntry c prev)) cs

/-- Placeholder audit record (for total indexing). -/
def recDefault : AuditRecord :=
  ⟨⟨"", "", "", "", "", "", 0, "", "", ""⟩, "", "", ""⟩

/-- The running `prev` the verifier sees at 0-based index `i` when the
chain started from head `prev`. -/
def prevAtFrom (prev : String) (recs : List AuditRecord) : ℕ → String
  | 0 => prev
  | k + 1 => ((recs.drop k).headD recDefault).hash

/-! # Theorems -/

/-- C5: for any two actions whose `{type, target, params}` agree, and for
any hash function, `digest_action` returns equal digests, whatever the
difference in `reason` or any other attached field: the digest is a
function of the immutable intent only. -/
theorem digest_action_intent_only (H : String → String) (a b : OpsAction)
    (hty : a.type = b.type) (htg : a.target = b.target)
    (hp : a.params = b.params) :
    digest_action H a = digest_action H b := by
  cases a; cases b
  simp only [OpsAction.mk.injEq] at hty htg hp
  simp [digest_action, hty, htg, hp]

/-- Witness for C5: two concrete actions differing in `reason` and in the
extra (manager/timestamp-like) fields have equal digests. -/
theorem digest_action_intent_only_witness :
    digest_action (fun s => s)
        ⟨some "restart_service", some "api", [("k", "v")], some "cpu high",
          [("manager", "m1")]⟩ =
      digest_action (fun s => s)
        ⟨some "restart_service", some "api", [("k", "v")], some "disk full",
          [("manager", "m2"), ("created_ts", "170")]⟩ :=
  digest_action_intent_only (fun s => s) _ _ rfl rfl rfl

/-- C1 counterexample: the claim fails at reputation values in
`(REP_DENY_AT, REP_REVIEW_AT]`: `"rm -rf /"` matches a deny pattern, yet
`evaluate_command_v2 "rm -rf /" (-5)` returns `review`, because the
reputation gate runs before the deny patterns. -/
theorem evaluate_command_v2_review_beats_deny_pattern :
    matchesDenyPattern "rm -rf /" = true ∧
      (evaluate_command_v2 "rm -rf /" (-5)).decision = "review" := by
  constructor
  · decide
  · norm_num [evaluate_command_v2, REP_DENY_AT, REP_REVIEW_AT]

/-- C1 (amended): for every command matching a deny pattern,
`evaluate_command_v2` returns `deny` for every reputation outside
`(REP_DENY_AT, REP_REVIEW_AT]` — in particular for all values above
`REP_REVIEW_AT`, including ≥ 100, and all values ≤ `REP_DENY_AT` — while
for reputations in `(REP_DENY_AT, REP_REVIEW_AT]` it returns `review`. -/
theorem evaluate_command_v2_denyPattern (cmd : String) (rep : ℚ)
    (h : matchesDenyPattern (strTrim cmd) = true) :
    ((rep ≤ REP_DENY_AT ∨ REP_REVIEW_AT < rep) →
      (evaluate_command_v2 cmd rep).decision = "deny") ∧
    (REP_DENY_AT < rep → rep ≤ REP_REVIEW_AT →
      (evaluate_command_v2 cmd rep).decision = "review") := by
  have hfind : ∃ r, findDenyReason (strTrim cmd) = some r := by
    have : (DENY_PATTERNS.find? (fun pr => rxSearch pr.1 (strTrim cmd))).isSome := by
      rw [List.find?_isSome]
      simpa [matchesDenyPattern] using h
    rcases Option.isSome_iff_exists.mp this with ⟨p, hp⟩
    exact ⟨p.2, by simp [findDenyReason, hp]⟩
  obtain ⟨r, hr⟩ := hfind
  constructor
  · rintro (hle | hgt)
    · simp [evaluate_command_v2, hle]
    · have h1 : ¬rep ≤ REP_DENY_AT := by
        simp only [not_le]
        calc REP_DENY_AT < REP_REVIEW_AT := by norm_num [REP_DENY_AT, REP_REVIEW_AT]
          _ < rep := hgt
      have h2 : ¬rep ≤ REP_REVIEW_AT := not_le.mpr hgt
      simp [evaluate_command_v2, h1, h2, hr]
  · intro hgt hle
    have h1 : ¬rep ≤ REP_DENY_AT := not_le.mpr hgt
    simp [evaluate_command_v2, h1, hle]

/-- Witness for C1 (amended): `"rm -rf /"` at reputation 100 is denied. -/
theorem evaluate_command_v2_denyPattern_witness :
    matchesDenyPattern (strTrim "rm -rf /") = true ∧
      (evaluate_command_v2 "rm -rf /" 100).decision = "deny" :=
  ⟨by decide,
    (evaluate_command_v2_denyPattern "rm -rf /" 100 (by decide)).1
      (Or.inr (by norm_num [REP_REVIEW_AT]))⟩

/-- C6: the float-score reputation gate applies only to an `allow` from
pattern evaluation: an allow with score below `REP_AUTO_DENY` becomes
`deny`, an allow with score in `[REP_AUTO_DENY, REP_AUTO_REVIEW)` becomes
`review`, and any non-allow verdict — in particular a pattern `deny` — is
returned unchanged for every score. -/
theorem rep_gate_only_on_allow (cmd : String) (rep score : ℚ) :
    ((evaluate_command_v2 cmd rep).decision ≠ "allow" →
      applyRepGate REP_AUTO_DENY REP_AUTO_REVIEW
        (evaluate_command_v2 cmd rep) score = evaluate_command_v2 cmd rep) ∧
    ((evaluate_command_v2 cmd rep).decision = "allow" →
      score < REP_AUTO_DENY →
      (applyRepGate REP_AUTO_DENY REP_AUTO_REVIEW
        (evaluate_command_v2 cmd rep) score).decision = "deny") ∧
    ((evaluate_command_v2 cmd rep).decision = "allow" →
      REP_AUTO_DENY ≤ score → score < REP_AUTO_REVIEW →
      (applyRepGate REP_AUTO_DENY REP_AUTO_REVIEW
        (evaluate_command_v2 cmd rep) score).decision = "review") ∧
    ((evaluate_command_v2 cmd rep).decision = "deny" →
      applyRepGate REP_AUTO_DENY REP_AUTO_REVIEW
        (evaluate_command_v2 cmd rep) score = evaluate_command_v2 cmd rep) := by
  refine ⟨fun h => ?_, fun h hs => ?_, fun h hs1 hs2 => ?_, fun h => ?_⟩
  · simp [applyRepGate, h]
  · simp [applyRepGate, h, hs]
  · simp [applyRepGate, h, not_lt.mpr hs1, hs2]
  · have : (evaluate_command_v2 cmd rep).decision ≠ "allow" := by
      rw [h]; decide
    simp [applyRepGate, this]

/-- Witness for C6, matching the spec scenario: oracle score 0.15 with
`REP_AUTO_DENY = 0.20`; `ls` would be allowed by policy but the final
decision is `deny`; and a pattern deny (`rm -rf /`) survives score 1.0. -/
theorem rep_gate_only_on_allow_witness :
    (applyRepGate REP_AUTO_DENY REP_AUTO_REVIEW
      (evaluate_command_v2 "ls" 0) 0.15).decision = "deny" ∧
    applyRepGate REP_AUTO_DENY REP_AUTO_REVIEW
      (evaluate_command_v2 "rm -rf /" 0) 1 = evaluate_command_v2 "rm -rf /" 0 := by
  have hf1 : findDenyReason (strTrim "ls") = none := by decide
  have hf2 : findDenyReason (strTrim "rm -rf /") =
      some "Matched high-risk pattern: 'rm -rf'" := by decide
  constructor
  · exact (rep_gate_only_on_allow "ls" 0 0.15).2.1
      (by norm_num [evaluate_command_v2, REP_DENY_AT, REP_REVIEW_AT, hf1])
      (by norm_num [REP_AUTO_DENY])
  · exact (rep_gate_only_on_allow "rm -rf /" 0 1).2.2.2
      (by norm_num [evaluate_command_v2, REP_DENY_AT, REP_REVIEW_AT, hf2])

/-- C9: over any per-service sequence of probe outcomes, the number of
incidents emitted equals the number of `{unknown, ok} → fail` transitions
of the persisted state; `fail` is entered only once the consecutive
failure counter reaches `FAIL_THRESHOLD`; a success resets the counter to
0 and the state to `ok`; and a success (in particular the `fail → ok`
recovery) never emits. -/
theorem probe_edge_triggered (T : ℕ) (st0 : ProbeState) (os : List Bool) :
    ((probeRun T st0 os).2.count true =
      transitionsToFail (st0.stored.getD "unknown") (probeTrace T st0 os)) ∧
    (∀ st : ProbeState, ∀ o : Bool,
      (probeStep T st o).1.stored = some "fail" →
        o = false ∧ T ≤ (probeStep T st o).1.failcount) ∧
    (∀ st : ProbeState, (probeStep T st true).1 = ⟨some "ok", 0⟩) ∧
    (∀ st : ProbeState, (probeStep T st true).2 = false) := by
  refine ⟨?_, ?_, ?_, ?_⟩
  · induction os generalizing st0 with
    | nil => simp [probeRun, probeTrace, transitionsToFail]
    | cons o rest ih =>
      cases o with
      | true =>
        have h1 : probeStep T st0 true = (⟨some "ok", 0⟩, false) := rfl
        simp only [probeRun, probeTrace, h1, List.count_cons]
        rw [ih]
        simp [transitionsToFail]
      | false =>
        by_cases hT : T ≤ st0.failcount + 1
        · have h1 : probeStep T st0 false =
              (⟨some "fail", st0.failcount + 1⟩,
                decide (st0.stored.getD "unknown" ≠ "fail")) := by
            simp [probeStep, hT]
          simp only [probeRun, probeTrace, h1, List.count_cons]
          rw [ih]
          by_cases hp : st0.stored.getD "unknown" = "fail" <;>
            simp [transitionsToFail, hp, Nat.add_comm]
        · have h1 : probeStep T st0 false =
              (⟨some "ok", st0.failcount + 1⟩, false) := by
            simp [probeStep, hT]
          simp only [probeRun, probeTrace, h1, List.count_cons]
          rw [ih]
          simp [transitionsToFail]
  · intro st o h
    by_cases ho : o
    · subst ho; simp [probeStep] at h
    · simp only [Bool.not_eq_true] at ho
      subst ho
      refine ⟨rfl, ?_⟩
      simp only [probeStep] at h ⊢
      by_cases hT : T ≤ st.failcount + 1
      · simp [hT]
      · simp [hT] at h
  · intro st; rfl
  · intro st; rfl

/-- Witness for C9: threshold 2 over outcomes fail,fail,ok,fail,fail emits
exactly at the two `→ fail` transitions, and a concrete fail-state entry
has its counter at the threshold. -/
theorem probe_edge_triggered_witness :
    ((probeRun 2 ⟨none, 0⟩ [false, false, true, false, false]).2.count true =
      transitionsToFail "unknown"
        (probeTrace 2 ⟨none, 0⟩ [false, false, true, false, false])) ∧
    (false = false ∧ 2 ≤ (probeStep 2 ⟨some "ok", 1⟩ false).1.failcount) ∧
    (probeStep 2 ⟨some "fail", 2⟩ true).1 = ⟨some "ok", 0⟩ :=
  ⟨(probe_edge_triggered 2 ⟨none, 0⟩ [false, false, true, false, false]).1,
    (probe_edge_triggered 2 ⟨some "ok", 1⟩ []).2.1 ⟨some "ok", 1⟩ false (by decide),
    (probe_edge_triggered 2 ⟨some "fail", 2⟩ []).2.2.1 ⟨some "fail", 2⟩⟩

/-- Pruning is a no-op when every queued event is within the window. -/
lemma dropWhile_span (q : List ℚ) (cutoff : ℚ) (h : ∀ t ∈ q, cutoff ≤ t) :
    q.dropWhile (fun t => t < cutoff) = q := by
  cases q with
  | nil => rfl
  | cons a l =>
    rw [List.dropWhile_cons]
    simp [not_lt.mpr (h a (by simp))]

/-- While the total number of events stays at most `N` and all attempt
times lie within one window span, every attempt is admitted and the deque
accumulates the attempt times in order. -/
lemma rateLimitRun_admits_all (N : ℤ) (W : ℚ) :
    ∀ (ts q : List ℚ),
      (∀ x ∈ q ++ ts, ∀ y ∈ q ++ ts, y - W ≤ x) →
      ((q.length : ℤ) + ts.length ≤ N) →
      rateLimitRun N W q ts = (List.replicate ts.length true, q ++ ts) := by
  intro ts
  induction ts with
  | nil =>
    intro q h hl
    simp [rateLimitRun]
  | cons now rest ih =>
    intro q hspan hlen
    have h0 : ¬N ≤ 0 := by
      simp only [List.length_cons] at hlen
      push_cast at hlen
      omega
    have hprune : q.dropWhile (fun t => t < now - W) = q := by
      refine dropWhile_span _ _ (fun t ht => ?_)
      have := hspan t (List.mem_append_left _ ht) now
        (List.mem_append_right _ (by simp))
      linarith
    have hlt : ¬N ≤ (q.length : ℤ) := by
      simp only [List.length_cons] at hlen
      push_cast at hlen
      omega
    have hstep : rateLimitStep N W q now = (true, q ++ [now]) := by
      simp [rateLimitStep, h0, hprune, hlt]
    have hspan2 : ∀ x ∈ (q ++ [now]) ++ rest, ∀ y ∈ (q ++ [now]) ++ rest,
        y - W ≤ x := by
      intro x hx y hy
      rw [List.append_assoc] at hx hy
      exact hspan x (by simpa using hx) y (by simpa using hy)
    have hlen2 : (((q ++ [now]).length : ℤ) + rest.length ≤ N) := by
      simp only [List.length_cons] at hlen
      simp only [List.length_append, List.length_cons, List.length_nil]
      push_cast at hlen ⊢
      omega
    rw [rateLimitRun, hstep]
    rw [show (true, q ++ [now]).2 = q ++ [now] from rfl]
    rw [ih (q ++ [now]) hspan2 hlen2]
    simp [List.replicate_succ]

/-- Helper: one rejected attempt on a full, in-window deque leaves it
unchanged. -/
lemma rateLimitStep_full (N : ℕ) (W : ℚ) (q : List ℚ) (now : ℚ)
    (hN : 0 < N) (hfull : q.length = N) (h : ∀ t ∈ q, now - W ≤ t) :
    rateLimitStep (N : ℤ) W q now = (false, q) := by
  have h0 : ¬(N : ℤ) ≤ 0 := by exact_mod_cast not_le.mpr hN
  have hprune : q.dropWhile (fun t => t < now - W) = q :=
    dropWhile_span _ _ h
  have hge : (N : ℤ) ≤ (q.length : ℤ) := by rw [hfull]
  simp [rateLimitStep, h0, hprune, hge]

/-- Splitting a run of admission attempts. -/
lemma rateLimitRun_append (N : ℤ) (W : ℚ) (q as bs : List ℚ) :
    rateLimitRun N W q (as ++ bs) =
      ((rateLimitRun N W q as).1 ++
        (rateLimitRun N W (rateLimitRun N W q as).2 bs).1,
        (rateLimitRun N W (rateLimitRun N W q as).2 bs).2) := by
  induction as generalizing q with
  | nil => simp [rateLimitRun]
  | cons a rest ih => simp [rateLimitRun, ih]

/-- C7: with `RATE_LIMIT_MAX = N > 0` and window `W`, for attempt times
all lying within one `W`-second span, exactly the first `N` admission
attempts succeed; the `(N+1)`-th is rejected with HTTP 429 and appends no
event — the deque after the rejection is exactly the `N` admitted times. -/
theorem rate_limit_exact (N : ℕ) (W : ℚ) (ts : List ℚ) (tN : ℚ)
    (hN : 0 < N) (hlen : ts.length = N)
    (hspan : ∀ x ∈ ts ++ [tN], ∀ y ∈ ts ++ [tN], y - W ≤ x) :
    rateLimitRun (N : ℤ) W [] (ts ++ [tN]) =
      (List.replicate N true ++ [false], ts) := by
  have hfirst : rateLimitRun (N : ℤ) W [] ts = (List.replicate N true, ts) := by
    have hspan1 : ∀ x ∈ ([] : List ℚ) ++ ts, ∀ y ∈ ([] : List ℚ) ++ ts,
        y - W ≤ x := by
      intro x hx y hy
      exact hspan x (List.mem_append_left _ (by simpa using hx)) y
        (List.mem_append_left _ (by simpa using hy))
    have := rateLimitRun_admits_all (N : ℤ) W ts [] hspan1
      (by simp [hlen])
    simpa [hlen] using this
  have hlast : rateLimitRun (N : ℤ) W ts [tN] = ([false], ts) := by
    have hstep : rateLimitStep (N : ℤ) W ts tN = (false, ts) := by
      refine rateLimitStep_full N W ts tN hN hlen (fun t ht => ?_)
      have := hspan t (List.mem_append_left _ ht) tN
        (List.mem_append_right _ (by simp))
      linarith
    simp [rateLimitRun, hstep]
  rw [rateLimitRun_append, hfirst, hlast]

/-- Witness for C7: `MAX = 2`, `WINDOW = 60`, attempts at t = 0, 1, 2:
the first two are admitted, the third is rejected and consumes nothing. -/
theorem rate_limit_exact_witness :
    rateLimitRun ((2 : ℕ) : ℤ) 60 [] ([0, 1] ++ [2]) =
      (List.replicate 2 true ++ [false], [0, 1]) :=
  rate_limit_exact 2 60 [0, 1] 2 (by norm_num) (by norm_num)
    (by
      intro x hx y hy
      fin_cases hx <;> fin_cases hy <;> norm_num)

/-- Characterization of `check_and_set`: success iff no live (unexpired)
row holds the nonce; afterwards the nonce is always present, freshly
stamped with `now` on success; and on the replay path the store is
returned unchanged. -/
lemma check_and_set_spec (st : ReplayStore) (nonce : String) (ttl now : ℚ) :
    ((check_and_set st nonce ttl now).1 = true ↔
      ¬∃ e ∈ st.entries, e.1 = nonce ∧ now - ttl ≤ e.2) ∧
    (∃ e ∈ (check_and_set st nonce ttl now).2.entries, e.1 = nonce) ∧
    ((check_and_set st nonce ttl now).1 = true →
      (nonce, now) ∈ (check_and_set st nonce ttl now).2.entries) ∧
    ((check_and_set st nonce ttl now).1 = false →
      (check_and_set st nonce ttl now).2 = st) := by
  by_cases hany :
      (st.entries.filter (fun e => !(e.2 < now - ttl : Bool))).any
        (fun e => e.1 = nonce) = true
  · obtain ⟨e, he, hnonce⟩ := List.any_eq_true.mp hany
    have hmem : e ∈ st.entries := List.mem_of_mem_filter he
    have hlive : now - ttl ≤ e.2 := by
      have := List.of_mem_filter he
      simpa using this
    refine ⟨?_, ?_, ?_, ?_⟩
    · simp only [check_and_set, hany, if_pos]
      constructor
      · intro h; cases h
      · intro h
        exact absurd ⟨e, hmem, by simpa using hnonce, hlive⟩ h
    · refine ⟨e, ?_, by simpa using hnonce⟩
      simp only [check_and_set, hany, if_pos]
      exact hmem
    · intro h
      simp only [check_and_set, hany, if_pos] at h
      cases h
    · intro h
      simp only [check_and_set, hany, if_pos]
  · have hany2 : ¬(st.entries.filter (fun e => !(e.2 < now - ttl : Bool))).any
        (fun e => e.1 = nonce) = true := hany
    refine ⟨?_, ?_, ?_, ?_⟩
    · simp only [check_and_set, if_neg hany2]
      constructor
      · intro _ h
        obtain ⟨e, hmem, hnonce, hlive⟩ := h
        refine hany (List.any_eq_true.mpr ⟨e, ?_, by simpa using hnonce⟩)
        refine List.mem_filter.mpr ⟨hmem, ?_⟩
        simpa using hlive
      · intro _; trivial
    · refine ⟨(nonce, now), ?_, rfl⟩
      simp only [check_and_set, if_neg hany2]
      exact List.mem_append_right _ (by simp)
    · intro _
      simp only [check_and_set, if_neg hany2]
      exact List.mem_append_right _ (by simp)
    · intro h
      simp only [check_and_set, if_neg hany2] at h
      cases h

/-- The signed `/analyze` path up to a successful decision: with the
freeze off, the rate limiter admitting, a valid API key, parseable
in-window timestamp, a fresh nonce and a correct signature, the request
succeeds and the replay store afterwards is the one `check_and_set`
produced (nonce consumed). -/
lemma analyze_signed_success (cfg : ApiConfig) (sign : String → String)
    (parseTs : String → Option ℚ) (st : GatewayState) (req : AnalyzeRequest)
    (key sig tsStr : String) (tsU now : ℚ)
    (hfreeze : cfg.GLOBAL_FREEZE = false)
    (hsignOn : cfg.signingEnabled = true)
    (hrl : (rateLimitStep cfg.RATE_LIMIT_MAX cfg.RATE_LIMIT_WINDOW_SEC
      (st.rateEvents req.agent_id) now).1 = true)
    (hkey : ¬(cfg.API_KEY ≠ "" ∧ (some key : Option String) ≠ some cfg.API_KEY))
    (hparse : parseTs tsStr = some tsU)
    (hwin : ¬(|now - tsU| > cfg.TIME_WINDOW_SEC))
    (hcas : (check_and_set st.replay
      (replayNonce req.agent_id req.command tsStr) cfg.TIME_WINDOW_SEC now).1 = true)
    (hsigok : sign (canonSignedPayload req.agent_id req.command
      req.timestamp tsStr) = sig) :
    (∃ v rb ra, (analyze cfg sign parseTs st req (some key) (some sig)
      (some tsStr) now).1 = .ok v rb ra) ∧
    (analyze cfg sign parseTs st req (some key) (some sig)
      (some tsStr) now).2.replay =
      (check_and_set st.replay (replayNonce req.agent_id req.command tsStr)
        cfg.TIME_WINDOW_SEC now).2 := by
  constructor
  · simp only [analyze, hfreeze, hsignOn, hrl, hparse, hcas, hsigok,
      Bool.false_eq_true, if_false, Bool.not_true, if_neg hkey, if_neg hwin,
      Bool.not_false, if_true, ne_eq, not_true_eq_false,
      if_neg (by simp : ¬(sig ≠ sig))]
    exact ⟨_, _, _, rfl⟩
  · simp only [analyze, hfreeze, hsignOn, hrl, hparse, hcas, hsigok,
      Bool.false_eq_true, if_false, Bool.not_true, if_neg hkey, if_neg hwin,
      Bool.not_false, if_true, ne_eq, not_true_eq_false,
      if_neg (by simp : ¬(sig ≠ sig))]

/-- The signed `/analyze` path when the nonce is already present: with the
freeze off, the rate limiter admitting, a valid API key and a parseable
in-window timestamp, the request is rejected with HTTP 409. -/
lemma analyze_replay_409 (cfg : ApiConfig) (sign : String → String)
    (parseTs : String → Option ℚ) (st : GatewayState) (req : AnalyzeRequest)
    (key sig tsStr : String) (tsU now : ℚ)
    (hfreeze : cfg.GLOBAL_FREEZE = false)
    (hsignOn : cfg.signingEnabled = true)
    (hrl : (rateLimitStep cfg.RATE_LIMIT_MAX cfg.RATE_LIMIT_WINDOW_SEC
      (st.rateEvents req.agent_id) now).1 = true)
    (hkey : ¬(cfg.API_KEY ≠ "" ∧ (some key : Option String) ≠ some cfg.API_KEY))
    (hparse : parseTs tsStr = some tsU)
    (hwin : ¬(|now - tsU| > cfg.TIME_WINDOW_SEC))
    (hcas : (check_and_set st.replay
      (replayNonce req.agent_id req.command tsStr)
      cfg.TIME_WINDOW_SEC now).1 = false) :
    (analyze cfg sign parseTs st req (some key) (some sig)
      (some tsStr) now).1 = .err 409 "Replay detected" := by
  simp only [analyze, hfreeze, hsignOn, hrl, hparse, hcas,
    Bool.false_eq_true, if_false, Bool.not_true, if_neg hkey, if_neg hwin,
    Bool.not_false, if_true]

/-- The signed `/analyze` path with a fresh nonce but a wrong signature:
the request fails with 401 Bad signature, yet the nonce has already been
consumed — the replay store afterwards contains it. -/
lemma analyze_bad_signature (cfg : ApiConfig) (sign : String → String)
    (parseTs : String → Option ℚ) (st : GatewayState) (req : AnalyzeRequest)
    (key sig tsStr : String) (tsU now : ℚ)
    (hfreeze : cfg.GLOBAL_FREEZE = false)
    (hsignOn : cfg.signingEnabled = true)
    (hrl : (rateLimitStep cfg.RATE_LIMIT_MAX cfg.RATE_LIMIT_WINDOW_SEC
      (st.rateEvents req.agent_id) now).1 = true)
    (hkey : ¬(cfg.API_KEY ≠ "" ∧ (some key : Option String) ≠ some cfg.API_KEY))
    (hparse : parseTs tsStr = some tsU)
    (hwin : ¬(|now - tsU| > cfg.TIME_WINDOW_SEC))
    (hcas : (check_and_set st.replay
      (replayNonce req.agent_id req.command tsStr)
      cfg.TIME_WINDOW_SEC now).1 = true)
    (hsigbad : sign (canonSignedPayload req.agent_id req.command
      req.timestamp tsStr) ≠ sig) :
    (analyze cfg sign parseTs st req (some key) (some sig)
      (some tsStr) now).1 = .err 401 "Bad signature" ∧
    (analyze cfg sign parseTs st req (some key) (some sig)
      (some tsStr) now).2.replay =
      (check_and_set st.replay (replayNonce req.agent_id req.command tsStr)
        cfg.TIME_WINDOW_SEC now).2 := by
  constructor
  · simp only [analyze, hfreeze, hsignOn, hrl, hparse, hcas,
      Bool.false_eq_true, if_false, Bool.not_true, if_neg hkey, if_neg hwin,
      Bool.not_false, if_true, ne_eq, if_pos hsigbad]
  · simp only [analyze, hfreeze, hsignOn, hrl, hparse, hcas,
      Bool.false_eq_true, if_false, Bool.not_true, if_neg hkey, if_neg hwin,
      Bool.not_false, if_true, ne_eq, if_pos hsigbad]

/-- C4: `check_and_set` returns true iff the nonce has no live (unexpired)
row, and stores the nonce stamped with the current time; consequently, on
the signed `/analyze` path, the first request for a given
(agent_id, command, ts_unix) passes the replay check and succeeds, and a
second identical request within `TIME_WINDOW_SEC` fails with HTTP 409. -/
theorem check_and_set_once_then_409 :
    (∀ (st : ReplayStore) (nonce : String) (ttl now : ℚ),
      ((check_and_set st nonce ttl now).1 = true ↔
        ¬∃ e ∈ st.entries, e.1 = nonce ∧ now - ttl ≤ e.2) ∧
      ((check_and_set st nonce ttl now).1 = true →
        (nonce, now) ∈ (check_and_set st nonce ttl now).2.entries)) ∧
    (∀ (cfg : ApiConfig) (sign : String → String)
      (parseTs : String → Option ℚ) (st : GatewayState)
      (req : AnalyzeRequest) (key sig tsStr : String) (tsU now1 now2 : ℚ),
      cfg.GLOBAL_FREEZE = false →
      cfg.signingEnabled = true →
      (rateLimitStep cfg.RATE_LIMIT_MAX cfg.RATE_LIMIT_WINDOW_SEC
        (st.rateEvents req.agent_id) now1).1 = true →
      (rateLimitStep cfg.RATE_LIMIT_MAX cfg.RATE_LIMIT_WINDOW_SEC
        ((analyze cfg sign parseTs st req (some key) (some sig)
          (some tsStr) now1).2.rateEvents req.agent_id) now2).1 = true →
      ¬(cfg.API_KEY ≠ "" ∧ (some key : Option String) ≠ some cfg.API_KEY) →
      parseTs tsStr = some tsU →
      ¬(|now1 - tsU| > cfg.TIME_WINDOW_SEC) →
      ¬(|now2 - tsU| > cfg.TIME_WINDOW_SEC) →
      (check_and_set st.replay (replayNonce req.agent_id req.command tsStr)
        cfg.TIME_WINDOW_SEC now1).1 = true →
      sign (canonSignedPayload req.agent_id req.command
        req.timestamp tsStr) = sig →
      now2 - now1 ≤ cfg.TIME_WINDOW_SEC →
      (∃ v rb ra, (analyze cfg sign parseTs st req (some key) (some sig)
        (some tsStr) now1).1 = .ok v rb ra) ∧
      (analyze cfg sign parseTs
        (analyze cfg sign parseTs st req (some key) (some sig)
          (some tsStr) now1).2
        req (some key) (some sig) (some tsStr) now2).1 =
          .err 409 "Replay detected") := by
  constructor
  · intro st nonce ttl now
    exact ⟨(check_and_set_spec st nonce ttl now).1,
      (check_and_set_spec st nonce ttl now).2.2.1⟩
  · intro cfg sign parseTs st req key sig tsStr tsU now1 now2 hfreeze hsignOn
      hrl1 hrl2 hkey hparse hwin1 hwin2 hcas1 hsigok hwithin
    have hsucc := analyze_signed_success cfg sign parseTs st req key sig tsStr
      tsU now1 hfreeze hsignOn hrl1 hkey hparse hwin1 hcas1 hsigok
    refine ⟨hsucc.1, ?_⟩
    set nonce := replayNonce req.agent_id req.command tsStr with hn
    have hmem : (nonce, now1) ∈
        (check_and_set st.replay nonce cfg.TIME_WINDOW_SEC now1).2.entries :=
      (check_and_set_spec st.replay nonce cfg.TIME_WINDOW_SEC now1).2.2.1 hcas1
    have hcas2 : (check_and_set
        (analyze cfg sign parseTs st req (some key) (some sig)
          (some tsStr) now1).2.replay nonce cfg.TIME_WINDOW_SEC now2).1 = false := by
      rw [hsucc.2]
      by_contra hne
      have htrue : (check_and_set
          (check_and_set st.replay nonce cfg.TIME_WINDOW_SEC now1).2 nonce
          cfg.TIME_WINDOW_SEC now2).1 = true := by
        cases h : (check_and_set
            (check_and_set st.replay nonce cfg.TIME_WINDOW_SEC now1).2 nonce
            cfg.TIME_WINDOW_SEC now2).1
        · exact absurd h hne
        · rfl
      have := (check_and_set_spec
        (check_and_set st.replay nonce cfg.TIME_WINDOW_SEC now1).2 nonce
        cfg.TIME_WINDOW_SEC now2).1.mp htrue
      exact this ⟨(nonce, now1), hmem, rfl, by linarith⟩
    exact analyze_replay_409 cfg sign parseTs _ req key sig tsStr tsU now2
      hfreeze hsignOn hrl2 hkey hparse hwin2 hcas2

/-- Witness for C4: a concrete signed request at t=100 succeeds; the
identical request at t=150 (within the 120 s window) returns 409. -/
theorem check_and_set_once_then_409_witness :
    (∃ v rb ra,
      (analyze ⟨false, "k", true, 120, 0, 60, 0.2, 0.4⟩ (fun _ => "S")
        (fun _ => some 100) ⟨fun _ => [], ⟨[]⟩, fun _ => none⟩
        ⟨"a1", "ls", "T", 0⟩ (some "k") (some "S") (some "100") 100).1 =
        .ok v rb ra) ∧
    (analyze ⟨false, "k", true, 120, 0, 60, 0.2, 0.4⟩ (fun _ => "S")
      (fun _ => some 100)
      (analyze ⟨false, "k", true, 120, 0, 60, 0.2, 0.4⟩ (fun _ => "S")
        (fun _ => some 100) ⟨fun _ => [], ⟨[]⟩, fun _ => none⟩
        ⟨"a1", "ls", "T", 0⟩ (some "k") (some "S") (some "100") 100).2
      ⟨"a1", "ls", "T", 0⟩ (some "k") (some "S") (some "100") 150).1 =
      .err 409 "Replay detected" :=
  check_and_set_once_then_409.2 ⟨false, "k", true, 120, 0, 60, 0.2, 0.4⟩
    (fun _ => "S") (fun _ => some 100) ⟨fun _ => [], ⟨[]⟩, fun _ => none⟩
    ⟨"a1", "ls", "T", 0⟩ "k" "S" "100" 100 100 150 rfl rfl rfl rfl
    (by simp) rfl (by norm_num) (by norm_num) rfl rfl (by norm_num)

/-- C10: on signed `/analyze`, the replay nonce is stored before the HMAC
signature is verified: a request failing with 401 Bad signature still
consumes the nonce, so the same (agent_id, command, ts_unix) with a
correct signature within `TIME_WINDOW_SEC` then fails with 409 instead of
being analyzed. -/
theorem bad_signature_consumes_nonce (cfg : ApiConfig)
    (sign : String → String) (parseTs : String → Option ℚ)
    (st : GatewayState) (req : AnalyzeRequest)
    (key sig1 sig2 tsStr : String) (tsU now1 now2 : ℚ)
    (hfreeze : cfg.GLOBAL_FREEZE = false)
    (hsignOn : cfg.signingEnabled = true)
    (hrl1 : (rateLimitStep cfg.RATE_LIMIT_MAX cfg.RATE_LIMIT_WINDOW_SEC
      (st.rateEvents req.agent_id) now1).1 = true)
    (hrl2 : (rateLimitStep cfg.RATE_LIMIT_MAX cfg.RATE_LIMIT_WINDOW_SEC
      ((analyze cfg sign parseTs st req (some key) (some sig1)
        (some tsStr) now1).2.rateEvents req.agent_id) now2).1 = true)
    (hkey : ¬(cfg.API_KEY ≠ "" ∧ (some key : Option String) ≠ some cfg.API_KEY))
    (hparse : parseTs tsStr = some tsU)
    (hwin1 : ¬(|now1 - tsU| > cfg.TIME_WINDOW_SEC))
    (hwin2 : ¬(|now2 - tsU| > cfg.TIME_WINDOW_SEC))
    (hcas1 : (check_and_set st.replay
      (replayNonce req.agent_id req.command tsStr)
      cfg.TIME_WINDOW_SEC now1).1 = true)
    (hsigbad : sign (canonSignedPayload req.agent_id req.command
      req.timestamp tsStr) ≠ sig1)
    (hsig2 : sign (canonSignedPayload req.agent_id req.command
      req.timestamp tsStr) = sig2)
    (hwithin : now2 - now1 ≤ cfg.TIME_WINDOW_SEC) :
    (analyze cfg sign parseTs st req (some key) (some sig1)
      (some tsStr) now1).1 = .err 401 "Bad signature" ∧
    (analyze cfg sign parseTs
      (analyze cfg sign parseTs st req (some key) (some sig1)
        (some tsStr) now1).2
      req (some key) (some sig2) (some tsStr) now2).1 =
      .err 409 "Replay detected" := by
  have hbad := analyze_bad_signature cfg sign parseTs st req key sig1 tsStr
    tsU now1 hfreeze hsignOn hrl1 hkey hparse hwin1 hcas1 hsigbad
  refine ⟨hbad.1, ?_⟩
  set nonce := replayNonce req.agent_id req.command tsStr with hn
  have hmem : (nonce, now1) ∈
      (check_and_set st.replay nonce cfg.TIME_WINDOW_SEC now1).2.entries :=
    (check_and_set_spec st.replay nonce cfg.TIME_WINDOW_SEC now1).2.2.1 hcas1
  have hcas2 : (check_and_set
      (analyze cfg sign parseTs st req (some key) (some sig1)
        (some tsStr) now1).2.replay nonce cfg.TIME_WINDOW_SEC now2).1 = false := by
    rw [hbad.2]
    by_contra hne
    have htrue : (check_and_set
        (check_and_set st.replay nonce cfg.TIME_WINDOW_SEC now1).2 nonce
        cfg.TIME_WINDOW_SEC now2).1 = true := by
      cases h : (check_and_set
          (check_and_set st.replay nonce cfg.TIME_WINDOW_SEC now1).2 nonce
          cfg.TIME_WINDOW_SEC now2).1
      · exact absurd h hne
      · rfl
    have := (check_and_set_spec
      (check_and_set st.replay nonce cfg.TIME_WINDOW_SEC now1).2 nonce
      cfg.TIME_WINDOW_SEC now2).1.mp htrue
    exact this ⟨(nonce, now1), hmem, rfl, by linarith⟩
  exact analyze_replay_409 cfg sign parseTs _ req key sig2 tsStr tsU now2
    hfreeze hsignOn hrl2 hkey hparse hwin2 hcas2

/-- Witness for C10: a request with wrong signature "X" at t=100 gets 401
but consumes the nonce; the correctly signed retry at t=150 gets 409. -/
theorem bad_signature_consumes_nonce_witness :
    (analyze ⟨false, "k", true, 120, 0, 60, 0.2, 0.4⟩ (fun _ => "S")
      (fun _ => some 100) ⟨fun _ => [], ⟨[]⟩, fun _ => none⟩
      ⟨"a1", "ls", "T", 0⟩ (some "k") (some "X") (some "100") 100).1 =
      .err 401 "Bad signature" ∧
    (analyze ⟨false, "k", true, 120, 0, 60, 0.2, 0.4⟩ (fun _ => "S")
      (fun _ => some 100)
      (analyze ⟨false, "k", true, 120, 0, 60, 0.2, 0.4⟩ (fun _ => "S")
        (fun _ => some 100) ⟨fun _ => [], ⟨[]⟩, fun _ => none⟩
        ⟨"a1", "ls", "T", 0⟩ (some "k") (some "X") (some "100") 100).2
      ⟨"a1", "ls", "T", 0⟩ (some "k") (some "S") (some "100") 150).1 =
      .err 409 "Replay detected" :=
  bad_signature_consumes_nonce ⟨false, "k", true, 120, 0, 60, 0.2, 0.4⟩
    (fun _ => "S") (fun _ => some 100) ⟨fun _ => [], ⟨[]⟩, fun _ => none⟩
    ⟨"a1", "ls", "T", 0⟩ "k" "X" "S" "100" 100 100 150 rfl rfl rfl rfl
    (by simp) rfl (by norm_num) (by norm_num) rfl (by simp) rfl (by norm_num)

/-- A digest is never the empty string (it carries the `sha256:` tag). -/
lemma digest_action_ne_empty (H : String → String) (a : OpsAction) :
    digest_action H a ≠ "" := by
  intro h
  have hdata := congrArg String.data h
  simp only [digest_action, String.data_append, List.append_eq_nil] at hdata
  exact absurd hdata.1 (by decide)

/-- C8: a first delivery of an approved `restart_service` action that
passes the allowlist and digest checks dispatches the side effect exactly
once and pushes exactly one executed/failed event; a second delivery of
the same action within `IDEMPOTENCY_TTL_SEC` is dropped silently — no
execution, no record write, no queue push: the state is unchanged —
because the NX set of `ops:exec:done:<action_id>` succeeds only once. -/
theorem executor_idempotent (cfg : ExecConfig) (H : String → String)
    (sdoc : ActionDoc → String) (sexec : ExecutionBlock → String)
    (restart : String → ℤ × String × String × String)
    (st : ExecState) (msg : ApprovedMsg) (now1 now2 : ℚ)
    (hchk : (allowedCheck cfg.ALLOWED_TYPES cfg.ALLOWED_TARGETS
      (strTrim (msg.approved_msg.action.type.getD ""))
      (strTrim (msg.approved_msg.action.target.getD ""))).1 = true)
    (hdig : strTrim (((msg.approved_msg.approval).map
      (·.approved_digest)).getD "") = digest_action H msg.approved_msg.action)
    (htype : strTrim (msg.approved_msg.action.type.getD "") = "restart_service")
    (hnew : doneAlive st.doneKeys msg.action_id now1 = false)
    (httl : now2 < now1 + cfg.IDEMPOTENCY_TTL_SEC) :
    ((executorStep cfg H sdoc sexec restart now1 st msg).dispatches =
      st.dispatches ++ [strTrim (msg.approved_msg.action.target.getD "")]) ∧
    ((executorStep cfg H sdoc sexec restart now1 st msg).executedQ.length +
        (executorStep cfg H sdoc sexec restart now1 st msg).rejectedQ.length =
      st.executedQ.length + st.rejectedQ.length + 1) ∧
    (executorStep cfg H sdoc sexec restart now2
        (executorStep cfg H sdoc sexec restart now1 st msg) msg =
      executorStep cfg H sdoc sexec restart now1 st msg) := by
  have hne := digest_action_ne_empty H msg.approved_msg.action
  have hchk2 : (allowedCheck cfg.ALLOWED_TYPES cfg.ALLOWED_TARGETS
      "restart_service"
      (strTrim (msg.approved_msg.action.target.getD ""))).1 = true := by
    rw [← htype]; exact hchk
  refine ⟨?_, ?_, ?_⟩
  · simp only [executorStep, hchk, hchk2, hdig, htype, hnew, Bool.not_true,
      Bool.false_eq_true, if_false, ne_eq, hne, decide_False, Bool.and_false,
      not_true_eq_false, if_true]
    rcases h0 : restart (strTrim (msg.approved_msg.action.target.getD "")) with
      ⟨rc, out, err, hint⟩
    by_cases hrc : rc = 0
    · simp [record_executed, hrc, hchk2, hdig, hne]
    · simp [record_executed, hrc, hchk2, hdig, hne]
  · simp only [executorStep, hchk, hchk2, hdig, htype, hnew, Bool.not_true,
      Bool.false_eq_true, if_false, ne_eq, hne, decide_False, Bool.and_false,
      not_true_eq_false, if_true]
    rcases h0 : restart (strTrim (msg.approved_msg.action.target.getD "")) with
      ⟨rc, out, err, hint⟩
    by_cases hrc : rc = 0
    · simp [record_executed, hrc, hchk2, hdig, hne]
      omega
    · simp [record_executed, hrc, hchk2, hdig, hne]
      omega
  · simp only [executorStep, hchk, hchk2, hdig, htype, hnew, Bool.not_true,
      Bool.false_eq_true, if_false, ne_eq, hne, decide_False, Bool.and_false,
      not_true_eq_false, if_true]
    rcases h0 : restart (strTrim (msg.approved_msg.action.target.getD "")) with
      ⟨rc, out, err, hint⟩
    by_cases hrc : rc = 0
    · simp [record_executed, hrc, hchk2, hdig, hne, doneAlive,
        List.any_append, httl]
    · simp [record_executed, hrc, hchk2, hdig, hne, doneAlive,
        List.any_append, httl]

/-- Witness for C8: a concrete approved restart of `api` delivered at
t=10 and again at t=20 (within the 86400 s idempotency TTL): one
dispatch, one executed event, second delivery a no-op. -/
theorem executor_idempotent_witness :
    ((executorStep ⟨["restart_service"], [], true, 86400⟩ (fun _ => "h")
        (fun _ => "D") (fun _ => "E") (fun _ => (0, "", "", "ok")) 10
        (⟨[], [], [], [], []⟩ : ExecState)
        ⟨"act_1_ab", ⟨⟨some "restart_service", some "api", [], none, []⟩,
          "approved", some ⟨"human_approver", 5, "sha256:h"⟩, none⟩⟩).dispatches =
      ([] : List String) ++
        [strTrim ((some "api" : Option String).getD "")]) ∧
    ((executorStep ⟨["restart_service"], [], true, 86400⟩ (fun _ => "h")
        (fun _ => "D") (fun _ => "E") (fun _ => (0, "", "", "ok")) 10
        (⟨[], [], [], [], []⟩ : ExecState)
        ⟨"act_1_ab", ⟨⟨some "restart_service", some "api", [], none, []⟩,
          "approved", some ⟨"human_approver", 5, "sha256:h"⟩, none⟩⟩).executedQ.length +
      (executorStep ⟨["restart_service"], [], true, 86400⟩ (fun _ => "h")
        (fun _ => "D") (fun _ => "E") (fun _ => (0, "", "", "ok")) 10
        (⟨[], [], [], [], []⟩ : ExecState)
        ⟨"act_1_ab", ⟨⟨some "restart_service", some "api", [], none, []⟩,
          "approved", some ⟨"human_approver", 5, "sha256:h"⟩, none⟩⟩).rejectedQ.length =
      ([] : List String).length + ([] : List String).length + 1) ∧
    (executorStep ⟨["restart_service"], [], true, 86400⟩ (fun _ => "h")
        (fun _ => "D") (fun _ => "E") (fun _ => (0, "", "", "ok")) 20
        (executorStep ⟨["restart_service"], [], true, 86400⟩ (fun _ => "h")
          (fun _ => "D") (fun _ => "E") (fun _ => (0, "", "", "ok")) 10
          (⟨[], [], [], [], []⟩ : ExecState)
          ⟨"act_1_ab", ⟨⟨some "restart_service", some "api", [], none, []⟩,
            "approved", some ⟨"human_approver", 5, "sha256:h"⟩, none⟩⟩)
        ⟨"act_1_ab", ⟨⟨some "restart_service", some "api", [], none, []⟩,
          "approved", some ⟨"human_approver", 5, "sha256:h"⟩, none⟩⟩ =
      executorStep ⟨["restart_service"], [], true, 86400⟩ (fun _ => "h")
        (fun _ => "D") (fun _ => "E") (fun _ => (0, "", "", "ok")) 10
        (⟨[], [], [], [], []⟩ : ExecState)
        ⟨"act_1_ab", ⟨⟨some "restart_service", some "api", [], none, []⟩,
          "approved", some ⟨"human_approver", 5, "sha256:h"⟩, none⟩⟩) :=
  executor_idempotent ⟨["restart_service"], [], true, 86400⟩ (fun _ => "h")
    (fun _ => "D") (fun _ => "E") (fun _ => (0, "", "", "ok"))
    (⟨[], [], [], [], []⟩ : ExecState)
    ⟨"act_1_ab", ⟨⟨some "restart_service", some "api", [], none, []⟩,
      "approved", some ⟨"human_approver", 5, "sha256:h"⟩, none⟩⟩ 10 20
    (by decide) (by decide) (by decide) (by decide) (by norm_num)

/-- C2 counterexample: the approver pushes one item onto
`ops:actions:approved` for a concrete approval, and that item is not the
bare action_id — it is the JSON document `{action_id, approved_msg, ts}`. -/
theorem approved_queue_item_not_bare_id :
    (approver_approve (fun _ => "\x7b\x7d") 0
      ⟨⟨some "restart_service", some "api", [], none, []⟩, "proposed",
        none, none⟩
      "act_1700000000_ab12cd" "sha256:x").approvedPushes.length = 1 ∧
    ¬"act_1700000000_ab12cd" ∈
      (approver_approve (fun _ => "\x7b\x7d") 0
        ⟨⟨some "restart_service", some "api", [], none, []⟩, "proposed",
          none, none⟩
        "act_1700000000_ab12cd" "sha256:x").approvedPushes := by
  constructor
  · rfl
  · norm_num [approver_approve, qstr, intStr, natStr, natDigits, jstr]
    decide

/-- C2 (amended): the proposed and quarantine queues carry the bare
action_id (with the canonical record stored under `ops:action:<id>` in
the KV); the approver and executor push full JSON documents — containing
the action_id — onto the approved, executed and rejected queues. -/
theorem queue_item_formats :
    (∀ (sdoc : ActionDoc → String) (record : ActionDoc) (id : String),
      (managerProposePush sdoc record id).2 = ("ops:actions:proposed", id) ∧
      (managerProposePush sdoc record id).1.1 = "ops:action:" ++ id) ∧
    (∀ (M : ℕ) (id stt origin : String) (count : ℕ),
      (requeue_or_quarantine M id stt origin count).2.1 = id ∧
      (M < count →
        (requeue_or_quarantine M id stt origin count).1 =
          "ops:actions:quarantine")) ∧
    (∀ (sdoc : ActionDoc → String) (now : ℚ) (record : ActionDoc)
      (id digest : String), ∃ rest,
      (approver_approve sdoc now record id digest).approvedPushes =
        ["\x7b\"action_id\":" ++ jstr id ++ rest] ∧
      (approver_approve sdoc now record id digest).kvWrites.length = 1) ∧
    (∀ (sdoc : ActionDoc → String) (now : ℚ) (record : ActionDoc)
      (id reason : String), ∃ rest,
      (approver_reject sdoc now record id reason).rejectedPushes =
        ["\x7b\"action_id\":" ++ jstr id ++ rest]) ∧
    (∀ (sdoc : ActionDoc → String) (now : ℚ) (st : ExecState)
      (id : String) (doc : ActionDoc) (reason : String), ∃ rest,
      (executor_reject sdoc now st id doc reason).rejectedQ =
        st.rejectedQ ++ ["\x7b\"action_id\":" ++ jstr id ++ rest]) ∧
    (∀ (sdoc : ActionDoc → String) (sexec : ExecutionBlock → String)
      (now : ℚ) (st : ExecState) (id : String) (doc : ActionDoc)
      (e : ExecutionBlock), ∃ rest,
      if e.ok then
        (record_executed sdoc sexec now st id doc e).executedQ =
          st.executedQ ++ ["\x7b\"action_id\":" ++ jstr id ++ rest] ∧
        (record_executed sdoc sexec now st id doc e).rejectedQ = st.rejectedQ
      else
        (record_executed sdoc sexec now st id doc e).rejectedQ =
          st.rejectedQ ++ ["\x7b\"action_id\":" ++ jstr id ++ rest] ∧
        (record_executed sdoc sexec now st id doc e).executedQ =
          st.executedQ) := by
  refine ⟨?_, ?_, ?_, ?_, ?_, ?_⟩
  · intro sdoc record id
    exact ⟨rfl, rfl⟩
  · intro M id stt origin count
    refine ⟨?_, fun h => ?_⟩
    · by_cases h1 : M < count
      · simp [requeue_or_quarantine, h1]
      · by_cases h2 : origin = "proposed" <;>
          simp [requeue_or_quarantine, h1, h2]
    · simp [requeue_or_quarantine, h]
  · intro sdoc now record id digest
    exact ⟨",\"approved_msg\":" ++
      sdoc { record with
        status := "approved"
        approval := some ⟨"human_approver", now, digest⟩ } ++
      ",\"ts\":" ++ qstr now ++ "\x7d",
      by simp [approver_approve, String.append_assoc], rfl⟩
  · intro sdoc now record id reason
    exact ⟨",\"error\":\"rejected\",\"reason\":" ++
      jstr (strTake 800 reason) ++ ",\"ts\":" ++ qstr now ++ "\x7d",
      by simp [approver_reject, String.append_assoc]⟩
  · intro sdoc now st id doc reason
    exact ⟨",\"error\":\"execution_rejected\",\"extra\":\x7b\x7d,\"reason\":" ++
      jstr (strTake 800 reason) ++ ",\"ts\":" ++ qstr now ++ "\x7d",
      by simp [executor_reject, String.append_assoc]⟩
  · intro sdoc sexec now st id doc e
    by_cases hok : e.ok
    · refine ⟨",\"approved_msg\":" ++
        sdoc { doc with
          status := if e.ok then "executed" else "failed"
          execution := some e } ++
        ",\"execution\":" ++ sexec e ++ ",\"ts\":" ++ qstr now ++ "\x7d", ?_⟩
      simp only [hok, if_true]
      exact ⟨by simp [record_executed, hok, String.append_assoc], by
        simp [record_executed, hok]⟩
    · simp only [Bool.not_eq_true] at hok
      refine ⟨",\"error\":\"execution_failed\",\"extra\":" ++ sexec e ++
        ",\"ts\":" ++ qstr now ++ "\x7d", ?_⟩
      simp only [hok, Bool.false_eq_true, if_false]
      exact ⟨by simp [record_executed, hok, String.append_assoc], by
        simp [record_executed, hok]⟩

/-- Witness for C2 (amended): instantiation at a concrete record: the
proposed queue receives the bare id, the approved queue a JSON document. -/
theorem queue_item_formats_witness :
    ((managerProposePush (fun _ => "\x7b\x7d")
      ⟨⟨some "restart_service", some "api", [], none, []⟩, "proposed",
        none, none⟩ "act_1_ab").2 = ("ops:actions:proposed", "act_1_ab") ∧
    (managerProposePush (fun _ => "\x7b\x7d")
      ⟨⟨some "restart_service", some "api", [], none, []⟩, "proposed",
        none, none⟩ "act_1_ab").1.1 = "ops:action:" ++ "act_1_ab") ∧
    (∃ rest,
      (approver_approve (fun _ => "\x7b\x7d") 0
        ⟨⟨some "restart_service", some "api", [], none, []⟩, "proposed",
          none, none⟩ "act_1_ab" "sha256:x").approvedPushes =
        ["\x7b\"action_id\":" ++ jstr "act_1_ab" ++ rest] ∧
      (approver_approve (fun _ => "\x7b\x7d") 0
        ⟨⟨some "restart_service", some "api", [], none, []⟩, "proposed",
          none, none⟩ "act_1_ab" "sha256:x").kvWrites.length = 1) :=
  ⟨queue_item_formats.1 (fun _ => "\x7b\x7d")
    ⟨⟨some "restart_service", some "api", [], none, []⟩, "proposed",
      none, none⟩ "act_1_ab",
    queue_item_formats.2.2.1 (fun _ => "\x7b\x7d") 0
      ⟨⟨some "restart_service", some "api", [], none, []⟩, "proposed",
        none, none⟩ "act_1_ab" "sha256:x"⟩

/-- `appendAll` in terms of `buildRecs`/`chainEnd`. -/
lemma foldl_write_eq (H hm : String → String) (s : Bool) :
    ∀ (cs : List AuditContent) (log : AuditLog),
      cs.foldl (write_audit_log H hm s) log =
        ⟨log.lines ++ buildRecs H hm s log.state cs, chainEnd H log.state cs⟩ := by
  intro cs
  induction cs with
  | nil =>
    intro log
    cases log
    simp [buildRecs, chainEnd]
  | cons c rest ih =>
    intro log
    rw [List.foldl_cons, ih]
    simp [write_audit_log, buildRecs, chainEnd, List.append_assoc]

/-- The lines of `appendAll` are `buildRecs` from `GENESIS`. -/
lemma appendAll_lines (H hm : String → String) (s : Bool)
    (cs : List AuditContent) :
    (appendAll H hm s cs).lines = buildRecs H hm s "GENESIS" cs := by
  rw [appendAll, foldl_write_eq]
  simp [emptyAudit]

/-- `buildRecs` preserves length. -/
lemma buildRecs_length (H hm : String → String) (s : Bool) :
    ∀ (cs : List AuditContent) (prev : String),
      (buildRecs H hm s prev cs).length = cs.length := by
  intro cs
  induction cs with
  | nil => intro prev; rfl
  | cons c rest ih => intro prev; simp [buildRecs, ih]

/-- An untampered chain passes verification, whatever the running head. -/
lemma verifyGo_buildRecs (H hm : String → String) (s : Bool) :
    ∀ (cs : List AuditContent) (prev : String) (n : ℕ),
      verifyGo H hm s prev n (buildRecs H hm s prev cs) = .ok (n + cs.length) := by
  intro cs
  induction cs with
  | nil => intro prev n; simp [buildRecs, verifyGo]
  | cons c rest ih =>
    intro prev n
    simp only [buildRecs, verifyGo]
    rw [if_neg (by simp), if_neg (by simp)]
    by_cases hs : s
    · rw [if_neg (by simp [hs])]
      rw [ih]
      simp [Nat.add_comm, Nat.add_assoc, Nat.add_left_comm]
    · rw [if_neg (by simp [hs])]
      rw [ih]
      simp [Nat.add_comm, Nat.add_assoc, Nat.add_left_comm]

/-- Shifting the verifier's running-`prev` helper across a cons. -/
lemma prevAtFrom_cons (prev : String) (r : AuditRecord)
    (rs : List AuditRecord) (i : ℕ) :
    prevAtFrom prev (r :: rs) (i + 1) = prevAtFrom r.hash rs i := by
  cases i with
  | zero => simp [prevAtFrom]
  | succ k => simp [prevAtFrom]

lemma verifyGo_set_tamper (H hm : String → String) (s : Bool) :
    ∀ (cs : List AuditContent) (prev : String) (n i : ℕ) (r2 : AuditRecord),
      i < cs.length →
      singleFieldTamper s ((buildRecs H hm s prev cs).getD i recDefault) r2 →
      (r2.entry ≠ ((buildRecs H hm s prev cs).getD i recDefault).entry →
        r2.hash ≠ H (prevAtFrom prev (buildRecs H hm s prev cs) i ++ "|" ++
          canonAuditEntry r2.entry r2.prev_hash)) →
      ∃ msg, verifyGo H hm s prev n ((buildRecs H hm s prev cs).set i r2) =
        .fail (n + i + 1) msg := by
  intro cs
  induction cs with
  | nil => intro prev n i r2 hi _ _; simp at hi
  | cons c rest ih =>
    intro prev n i r2 hi ht hcoll
    cases i with
    | zero =>
      simp only [buildRecs, List.getD_cons_zero] at ht hcoll
      simp only [prevAtFrom] at hcoll
      simp only [buildRecs, List.set_cons_zero, verifyGo]
      rcases ht with ⟨he, hp, hh, hsg⟩ | ⟨he, hp, hh, hsg⟩ |
        ⟨he, hp, hh, hsg⟩ | ⟨hs, he, hp, hh, hsg⟩
      · refine ⟨"hash mismatch", ?_⟩
        rw [if_neg (by simp [hp])]
        rw [if_pos (hcoll he)]
      · refine ⟨"prev_hash mismatch", ?_⟩
        rw [if_pos (by simp [hp])]
      · refine ⟨"hash mismatch", ?_⟩
        rw [if_neg (by simp [hp])]
        rw [if_pos (by rw [he, hp]; exact hh)]
      · refine ⟨"sig mismatch", ?_⟩
        rw [if_neg (by simp [hp])]
        rw [if_neg (by rw [he, hp]; simp [hh])]
        rw [if_pos ⟨hs, by rw [he, hp]; simp [hs] at hsg ⊢; exact hsg⟩]
    | succ i =>
      simp only [buildRecs, List.getD_cons_succ] at ht hcoll
      simp only [buildRecs, List.set_cons_succ, verifyGo]
      rw [if_neg (by simp), if_neg (by simp)]
      have hstep : ¬(s = true ∧ (if s = true then
          hm (H (prev ++ "|" ++ canonAuditEntry c prev)) else "") ≠
          hm (H (prev ++ "|" ++ canonAuditEntry c prev))) := by
        by_cases hs : s <;> simp [hs]
      rw [if_neg hstep]
      rw [prevAtFrom_cons] at hcoll
      have := ih (H (prev ++ "|" ++ canonAuditEntry c prev)) (n + 1) i r2
        (by simpa using hi) ht (by simpa using hcoll)
      obtain ⟨msg, hmsg⟩ := this
      refine ⟨msg, ?_⟩
      rw [hmsg]
      congr 1
      omega

lemma verifyGo_swap (H hm : String → String) (s : Bool) :
    ∀ (cs : List AuditContent) (prev : String) (n i j : ℕ),
      i < j → j < cs.length →
      ((buildRecs H hm s prev cs).getD j recDefault).prev_hash ≠
        prevAtFrom prev (buildRecs H hm s prev cs) i →
      verifyGo H hm s prev n
        (((buildRecs H hm s prev cs).set i
            ((buildRecs H hm s prev cs).getD j recDefault)).set j
          ((buildRecs H hm s prev cs).getD i recDefault)) =
        .fail (n + i + 1) "prev_hash mismatch" := by
  intro cs
  induction cs with
  | nil => intro prev n i j hij hj _; simp at hj
  | cons c rest ih =>
    intro prev n i j hij hj hne
    cases j with
    | zero => omega
    | succ j =>
      cases i with
      | zero =>
        simp only [buildRecs, List.getD_cons_succ, List.getD_cons_zero,
          List.set_cons_zero, List.set_cons_succ, verifyGo,
          prevAtFrom] at hne ⊢
        rw [if_pos hne]
      | succ i =>
        simp only [buildRecs, List.getD_cons_succ,
          List.set_cons_succ, verifyGo] at hne ⊢
        rw [prevAtFrom_cons] at hne
        rw [if_neg (by simp), if_neg (by simp)]
        have hstep : ¬(s = true ∧ (if s = true then
            hm (H (prev ++ "|" ++ canonAuditEntry c prev)) else "") ≠
            hm (H (prev ++ "|" ++ canonAuditEntry c prev))) := by
          by_cases hs : s <;> simp [hs]
        rw [if_neg hstep]
        have := ih (H (prev ++ "|" ++ canonAuditEntry c prev)) (n + 1) i j
          (by omega) (by simpa using hj) (by simpa using hne)
        rw [this]
        congr 1
        omega

/-- C3: starting from the empty audit log, any sequence of N appends via
`write_audit_log` verifies ok with `lines = N`; replacing any stored
entry by a single-field tamper (the record-level image of flipping a
byte) makes `verify_audit_chain` fail reporting exactly that entry's
1-based line number, under the no-collision hypothesis on the recomputed
hash; and swapping two entries (whose chain `prev_hash` values differ, as
they always do for a collision-free hash) makes verification fail at the
line of the first swapped entry. -/
theorem audit_chain_tamper_evident (H hm : String → String) (s : Bool) :
    (∀ cs : List AuditContent,
      verify_audit_chain H hm s (appendAll H hm s cs).lines = .ok cs.length) ∧
    (∀ (cs : List AuditContent) (i : ℕ) (r2 : AuditRecord),
      i < cs.length →
      singleFieldTamper s ((appendAll H hm s cs).lines.getD i recDefault) r2 →
      (r2.entry ≠ ((appendAll H hm s cs).lines.getD i recDefault).entry →
        r2.hash ≠ H (prevAtFrom "GENESIS" (appendAll H hm s cs).lines i ++
          "|" ++ canonAuditEntry r2.entry r2.prev_hash)) →
      ∃ msg, verify_audit_chain H hm s ((appendAll H hm s cs).lines.set i r2)
        = .fail (i + 1) msg) ∧
    (∀ (cs : List AuditContent) (i j : ℕ),
      i < j → j < cs.length →
      ((appendAll H hm s cs).lines.getD j recDefault).prev_hash ≠
        prevAtFrom "GENESIS" (appendAll H hm s cs).lines i →
      verify_audit_chain H hm s
        (((appendAll H hm s cs).lines.set i
            ((appendAll H hm s cs).lines.getD j recDefault)).set j
          ((appendAll H hm s cs).lines.getD i recDefault)) =
        .fail (i + 1) "prev_hash mismatch") := by
  refine ⟨?_, ?_, ?_⟩
  · intro cs
    rw [appendAll_lines]
    show verifyGo H hm s "GENESIS" 0 _ = _
    rw [verifyGo_buildRecs]
    simp
  · intro cs i r2 hi ht hcoll
    rw [appendAll_lines] at ht hcoll ⊢
    obtain ⟨msg, hmsg⟩ :=
      verifyGo_set_tamper H hm s cs "GENESIS" 0 i r2 hi ht hcoll
    refine ⟨msg, ?_⟩
    show verifyGo H hm s "GENESIS" 0 _ = _
    rw [hmsg]
    congr 1
    omega
  · intro cs i j hij hj hne
    rw [appendAll_lines] at hne ⊢
    show verifyGo H hm s "GENESIS" 0 _ = _
    rw [verifyGo_swap H hm s cs "GENESIS" 0 i j hij hj hne]
    congr 1
    omega

/-- Witness for C3: a two-entry chain verifies with lines = 2; changing
the command of the first entry is reported at line 1; swapping the two
entries is reported at line 1. -/
theorem audit_chain_tamper_evident_witness :
    (verify_audit_chain (fun t => "#" ++ t) (fun t => "!" ++ t) true
      (appendAll (fun t => "#" ++ t) (fun t => "!" ++ t) true [(⟨"t1", "ip1", "a1", "ls", "allow", "low", 0, "ok", "v2", "vt1"⟩ : AuditContent), ⟨"t2", "ip1", "a1", "pwd", "allow", "low", 0, "ok", "v2", "vt2"⟩]).lines = .ok 2) ∧
    (∃ msg, verify_audit_chain (fun t => "#" ++ t) (fun t => "!" ++ t) true
      ((appendAll (fun t => "#" ++ t) (fun t => "!" ++ t) true [(⟨"t1", "ip1", "a1", "ls", "allow", "low", 0, "ok", "v2", "vt1"⟩ : AuditContent), ⟨"t2", "ip1", "a1", "pwd", "allow", "low", 0, "ok", "v2", "vt2"⟩]).lines.set 0 (⟨⟨"t1", "ip1", "a1", "rm", "allow", "low", 0, "ok", "v2", "vt1"⟩, ((appendAll (fun t => "#" ++ t) (fun t => "!" ++ t) true [(⟨"t1", "ip1", "a1", "ls", "allow", "low", 0, "ok", "v2", "vt1"⟩ : AuditContent), ⟨"t2", "ip1", "a1", "pwd", "allow", "low", 0, "ok", "v2", "vt2"⟩]).lines.getD 0 recDefault).prev_hash, ((appendAll (fun t => "#" ++ t) (fun t => "!" ++ t) true [(⟨"t1", "ip1", "a1", "ls", "allow", "low", 0, "ok", "v2", "vt1"⟩ : AuditContent), ⟨"t2", "ip1", "a1", "pwd", "allow", "low", 0, "ok", "v2", "vt2"⟩]).lines.getD 0 recDefault).hash, ((appendAll (fun t => "#" ++ t) (fun t => "!" ++ t) true [(⟨"t1", "ip1", "a1", "ls", "allow", "low", 0, "ok", "v2", "vt1"⟩ : AuditContent), ⟨"t2", "ip1", "a1", "pwd", "allow", "low", 0, "ok", "v2", "vt2"⟩]).lines.getD 0 recDefault).sig⟩ : AuditRecord)) = .fail 1 msg) ∧
    (verify_audit_chain (fun t => "#" ++ t) (fun t => "!" ++ t) true
      (((appendAll (fun t => "#" ++ t) (fun t => "!" ++ t) true [(⟨"t1", "ip1", "a1", "ls", "allow", "low", 0, "ok", "v2", "vt1"⟩ : AuditContent), ⟨"t2", "ip1", "a1", "pwd", "allow", "low", 0, "ok", "v2", "vt2"⟩]).lines.set 0 ((appendAll (fun t => "#" ++ t) (fun t => "!" ++ t) true [(⟨"t1", "ip1", "a1", "ls", "allow", "low", 0, "ok", "v2", "vt1"⟩ : AuditContent), ⟨"t2", "ip1", "a1", "pwd", "allow", "low", 0, "ok", "v2", "vt2"⟩]).lines.getD 1 recDefault)).set 1
        ((appendAll (fun t => "#" ++ t) (fun t => "!" ++ t) true [(⟨"t1", "ip1", "a1", "ls", "allow", "low", 0, "ok", "v2", "vt1"⟩ : AuditContent), ⟨"t2", "ip1", "a1", "pwd", "allow", "low", 0, "ok", "v2", "vt2"⟩]).lines.getD 0 recDefault)) = .fail 1 "prev_hash mismatch") :=
  ⟨(audit_chain_tamper_evident (fun t => "#" ++ t) (fun t => "!" ++ t) true).1 _,
   (audit_chain_tamper_evident (fun t => "#" ++ t) (fun t => "!" ++ t) true).2.1
     _ 0 (⟨⟨"t1", "ip1", "a1", "rm", "allow", "low", 0, "ok", "v2", "vt1"⟩, ((appendAll (fun t => "#" ++ t) (fun t => "!" ++ t) true [(⟨"t1", "ip1", "a1", "ls", "allow", "low", 0, "ok", "v2", "vt1"⟩ : AuditContent), ⟨"t2", "ip1", "a1", "pwd", "allow", "low", 0, "ok", "v2", "vt2"⟩]).lines.getD 0 recDefault).prev_hash, ((appendAll (fun t => "#" ++ t) (fun t => "!" ++ t) true [(⟨"t1", "ip1", "a1", "ls", "allow", "low", 0, "ok", "v2", "vt1"⟩ : AuditContent), ⟨"t2", "ip1", "a1", "pwd", "allow", "low", 0, "ok", "v2", "vt2"⟩]).lines.getD 0 recDefault).hash, ((appendAll (fun t => "#" ++ t) (fun t => "!" ++ t) true [(⟨"t1", "ip1", "a1", "ls", "allow", "low", 0, "ok", "v2", "vt1"⟩ : AuditContent), ⟨"t2", "ip1", "a1", "pwd", "allow", "low", 0, "ok", "v2", "vt2"⟩]).lines.getD 0 recDefault).sig⟩ : AuditRecord) (by norm_num)
     (Or.inl ⟨by decide, rfl, rfl, rfl⟩) (fun _ => by decide),
   (audit_chain_tamper_evident (fun t => "#" ++ t) (fun t => "!" ++ t) true).2.2
     _ 0 1 (by norm_num) (by norm_num) (by decide)⟩

end Sentinel

